import Mathlib

/-!
Verification development for the Kodi `CBitstreamConverter` core
(src/xbmc/utils/BitstreamConverter.cpp / .h).

The C++ code is shallowly embedded: byte buffers become `List Nat` (each
element a byte value < 256, matching `uint8_t`), pointers into buffers become
list suffixes, machine integers become `Nat`/`Int` with explicit `% 2^w`
where wrap-around matters, and the class members touched by the modelled
operations become explicit state records.  Loops are embedded as structural
recursion on an explicit fuel argument; every top-level entry point supplies
a fuel that is provably sufficient (each loop iteration of the source
consumes at least one input byte), so the fuel never changes the semantics.

External collaborators (libdovi, the HDR10+ synthesizer, CHevcSei whose
sources are not part of this repository snapshot, and the process-info /
data-cache sink) are abstracted as oracle functions in the `Ext` record;
the spec treats them as out-of-scope contracts.
-/

/-- Bit reader state, mirroring the C `nal_bitstream` struct.  `data` is the
list of not-yet-consumed bytes (the region between the C `data` and `end`
pointers), `head` the number of valid bits in the low end of `cache`,
`cache` the 64-bit rolling cache. -/
structure nal_bitstream where
  data : List Nat
  head : Nat
  cache : Nat
deriving Repr, DecidableEq

/-- Mirrors `nal_bs_init`: cache is pre-filled with 0xffffffff so that the
emulation-prevention detection does not fire at stream start. -/
def nal_bs_init (data : List Nat) : nal_bitstream :=
  { data := data, head := 0, cache := 0xffffffff }

/-- One pass of the `next_byte` block inside `nal_bs_read`'s fill loop:
fetch the next raw byte; if it is 0x03 and the last two bytes shifted into
the cache were both 0x00, discard it and unconditionally fetch the byte
after it (`check_three_byte = false`).  Returns the byte that enters the
cache (or `none` when the data is exhausted) and the remaining data. -/
def pullByte : List Nat → Nat → Option Nat × List Nat
  | [], _ => (none, [])
  | b :: rest, cache =>
    if b = 3 ∧ cache % 65536 = 0 then
      match rest with
      | [] => (none, [])
      | b2 :: rest2 => (some b2, rest2)
    else (some b, rest)

/-- Fill loop of `nal_bs_read` (`while (bs->head < n) { ... }`), fueled.
Returns the filled state and the effective bit count `n` (reduced to
`bs->head` when the data runs out, exactly as the C code reassigns `n`).
The fuel only bounds the iteration count; `nal_bs_read` supplies
`data.length + 1`, which is always enough since every iteration consumes at
least one byte of `data`. -/
def fillAux (n : Nat) : Nat → nal_bitstream → nal_bitstream × Nat
  | 0, bs => (bs, n)
  | fuel + 1, bs =>
    if bs.head < n then
      match pullByte bs.data bs.cache with
      | (none, d') => ({ bs with data := d' }, bs.head)
      | (some b, d') =>
          fillAux n fuel
            { data := d', head := bs.head + 8, cache := (bs.cache * 256 + b) % 2 ^ 64 }
    else (bs, n)

/-- Mirrors `nal_bs_read`.  Returns the value (a `uint32_t` in C, hence the
`% 2^32` truncations) and the advanced stream state. -/
def nal_bs_read (bs : nal_bitstream) (n : Nat) : Nat × nal_bitstream :=
  if n = 0 then (0, bs)
  else
    let fm := fillAux n (bs.data.length + 1) bs
    let bs1 := fm.1
    let m := fm.2
    let shift := bs1.head - m
    let res0 := if 0 < shift then (bs1.cache >>> shift) % 2 ^ 32 else bs1.cache % 2 ^ 32
    let res := if m < 32 then res0 % 2 ^ m else res0
    (res, { bs1 with head := shift })

/-- Mirrors `nal_bs_eos`. -/
def nal_bs_eos (bs : nal_bitstream) : Bool :=
  bs.data = [] && bs.head = 0

/-- The leading-zero-count loop of `nal_bs_read_ue`
(`while (nal_bs_read(bs,1) == 0 && !nal_bs_eos(bs) && i < 31) i++;`).
The loop body runs at most 32 times because of the `i < 31` guard, so the
fuel 32 supplied by `nal_bs_read_ue` is never exhausted. -/
def ueLoopAux (bs : nal_bitstream) (i : Nat) : Nat → Nat × nal_bitstream
  | 0 => (i, bs)
  | fuel + 1 =>
    let r := nal_bs_read bs 1
    if r.1 = 0 ∧ nal_bs_eos r.2 = false ∧ i < 31 then ueLoopAux r.2 (i + 1) fuel
    else (i, r.2)

/-- Mirrors `nal_bs_read_ue`: `return ((1 << i) - 1 + nal_bs_read(bs, i));`.
The C expression is an `int` computed from a `uint32_t` read; we model the
resulting 32-bit pattern as a `Nat` below `2^32` (for `i = 31` the C shift
`1 << 31` is formally undefined behaviour; we model its universal
two's-complement realisation `2^31`). -/
def nal_bs_read_ue (bs : nal_bitstream) : Nat × nal_bitstream :=
  let il := ueLoopAux bs 0 32
  let r := nal_bs_read il.2 il.1
  ((2 ^ il.1 - 1 + r.1) % 2 ^ 32, r.2)

/-- Reinterpret the low 32 bits of a `Nat` as a two's-complement `int`
(the C `int` produced by `nal_bs_read_ue` and consumed by callers). -/
def int32OfUInt32 (x : Nat) : Int :=
  if x < 2 ^ 31 then (x : Int) else (x : Int) - 2 ^ 32

/-- Mirrors `nal_bs_read_se`: `i = (i + 1) / 2 * (i & 1 ? 1 : -1);` with C
truncating division (`Int.tdiv`) and the two's-complement parity bit
(`u % 2`, which equals `i & 1` for the int32 view `i` of `u`). -/
def nal_bs_read_se (bs : nal_bitstream) : Int × nal_bitstream :=
  let r := nal_bs_read_ue bs
  let i := int32OfUInt32 r.1
  (Int.tdiv (i + 1) 2 * (if r.1 % 2 = 1 then 1 else -1), r.2)

/-- Bits `h-1 .. 0` of `c`, most-significant first.  This is the abstract
"bit sequence" view used to specify the reader. -/
def cacheBits (c : Nat) : Nat → List Bool
  | 0 => []
  | h + 1 => c.testBit h :: cacheBits c h

/-- The eight bits of one byte, most-significant first. -/
def byteBits (b : Nat) : List Bool :=
  cacheBits b 8

/-- The bits the reader will produce from the not-yet-consumed data, given
the low 16 bits of the current cache (the last two bytes shifted in, which
drive the emulation-prevention discard). -/
def futureBits : List Nat → Nat → List Bool
  | [], _ => []
  | [b], last2 => if b = 3 ∧ last2 = 0 then [] else byteBits b
  | b :: b2 :: rest, last2 =>
    if b = 3 ∧ last2 = 0 then
      byteBits b2 ++ futureBits rest ((last2 * 256 + b2) % 65536)
    else
      byteBits b ++ futureBits (b2 :: rest) ((last2 * 256 + b) % 65536)

/-- The `head` bits already buffered in the cache, most-significant first. -/
def pendingBits (bs : nal_bitstream) : List Bool :=
  cacheBits bs.cache bs.head

/-- All bits the reader can still produce from state `bs`. -/
def allBits (bs : nal_bitstream) : List Bool :=
  pendingBits bs ++ futureBits bs.data (bs.cache % 65536)

/-- Value of a bit string, most-significant bit first. -/
def bitsToNat (l : List Bool) : Nat :=
  l.foldl (fun a b => 2 * a + (if b then 1 else 0)) 0


/-- One `do { v += p[offset]; } while (p[offset++] == 0xFF)` scan from
`has_sei_recovery_point` (used for both payload type and payload size).
Bytes addressed beyond the buffer read as 0 in the model (the C code can
read past `end` here; such reads terminate the 0xFF scan in practice).
Fueled; the caller supplies more fuel than `l.length + 1`, which suffices
because each iteration moves `offset` forward and out-of-range bytes are
not 0xFF. -/
def seiScanAux (l : List Nat) : Nat → Nat → Nat → Nat × Nat
  | 0, offset, acc => (acc + l.getD offset 0, offset + 1)
  | fuel + 1, offset, acc =>
    let b := l.getD offset 0
    if b = 255 then seiScanAux l fuel (offset + 1) (acc + 255)
    else (acc + b, offset + 1)

/-- Outer message loop of `has_sei_recovery_point`, fueled (each iteration
advances `offset` by at least 2, so fuel `l.length + 1` is enough for the
guarded recursion, whose condition requires `offset < l.length`). -/
def hasSeiRecoveryAux (l : List Nat) : Nat → Nat → Bool
  | 0, _ => false
  | fuel + 1, offset =>
    let pt := seiScanAux l (l.length + 1) offset 0
    let ps := seiScanAux l (l.length + 1) pt.2 0
    if pt.1 = 6 then
      -- SEI_RECOVERY_POINT: `return nal_bs_read_ue(&bs) >= 0;` on the
      -- `ps` payload bytes; `>= 0` on the C int is `< 2^31` on the bit pattern
      decide ((nal_bs_read_ue (nal_bs_init ((l.drop ps.2).take ps.1))).1 < 2 ^ 31)
    else
      let o3 := ps.2 + ps.1
      if o3 < l.length ∧ l.getD o3 0 ≠ 128 then hasSeiRecoveryAux l fuel o3
      else false

/-- Mirrors `has_sei_recovery_point(p, end)` on the byte list `l` of the
NAL unit (`offset` starts at 1, skipping the NAL header byte). -/
def has_sei_recovery_point (l : List Nat) : Bool :=
  hasSeiRecoveryAux l (l.length + 1) 1

/-! NAL unit type constants from the two enums at the top of
BitstreamConverter.cpp. -/

def AVC_NAL_SLICE : Nat := 1
def AVC_NAL_IDR_SLICE : Nat := 5
def AVC_NAL_SEI : Nat := 6
def AVC_NAL_SPS : Nat := 7
def AVC_NAL_PPS : Nat := 8
def AVC_NAL_END_SEQUENCE : Nat := 10
def HEVC_NAL_TRAIL_N : Nat := 0
def HEVC_NAL_TRAIL_R : Nat := 1
def HEVC_NAL_TSA_N : Nat := 2
def HEVC_NAL_TSA_R : Nat := 3
def HEVC_NAL_STSA_N : Nat := 4
def HEVC_NAL_STSA_R : Nat := 5
def HEVC_NAL_RADL_N : Nat := 6
def HEVC_NAL_RADL_R : Nat := 7
def HEVC_NAL_RASL_N : Nat := 8
def HEVC_NAL_RASL_R : Nat := 9
def HEVC_NAL_BLA_W_LP : Nat := 16
def HEVC_NAL_BLA_W_RADL : Nat := 17
def HEVC_NAL_BLA_N_LP : Nat := 18
def HEVC_NAL_IDR_W_RADL : Nat := 19
def HEVC_NAL_IDR_N_LP : Nat := 20
def HEVC_NAL_CRA_NUT : Nat := 21
def HEVC_NAL_VPS : Nat := 32
def HEVC_NAL_SPS : Nat := 33
def HEVC_NAL_PPS : Nat := 34
def HEVC_NAL_EOS_NUT : Nat := 36
/-- `HEVC_NAL_SEI_PREFIX` in the source (renamed here). -/
def HEVC_NAL_SEI_PFX : Nat := 39
def HEVC_NAL_UNSPEC62 : Nat := 62
def HEVC_NAL_UNSPEC63 : Nat := 63

/-- The two codecs handled by the converter (`AV_CODEC_ID_H264` /
`AV_CODEC_ID_HEVC`). -/
inductive Codec where
  | h264
  | hevc
deriving Repr, DecidableEq

/-- `enum DOVIMode` from BitstreamConverter.h. -/
inductive DOVIMode where
  | MODE_NONE
  | MODE_TOMEL
  | MODE_TO81
deriving Repr, DecidableEq

/-- `StreamHdrType` values relevant to the converter. -/
inductive StreamHdrType where
  | HDR_TYPE_NONE
  | HDR_TYPE_HDR10
  | HDR_TYPE_HDR10PLUS
  | HDR_TYPE_HLG
  | HDR_TYPE_DOLBYVISION
deriving Repr, DecidableEq

/-- Mirrors `CBitstreamConverter::IsIDR`. -/
def IsIDR (c : Codec) (u : Nat) : Bool :=
  match c with
  | .h264 => u == AVC_NAL_IDR_SLICE
  | .hevc =>
      u == HEVC_NAL_IDR_W_RADL || u == HEVC_NAL_IDR_N_LP || u == HEVC_NAL_CRA_NUT

/-- Mirrors `CBitstreamConverter::IsSlice`. -/
def IsSlice (c : Codec) (u : Nat) : Bool :=
  match c with
  | .h264 => u == AVC_NAL_SLICE
  | .hevc =>
      u == HEVC_NAL_TRAIL_R || u == HEVC_NAL_TRAIL_N || u == HEVC_NAL_TSA_N ||
      u == HEVC_NAL_TSA_R || u == HEVC_NAL_STSA_N || u == HEVC_NAL_STSA_R ||
      u == HEVC_NAL_BLA_W_LP || u == HEVC_NAL_BLA_W_RADL || u == HEVC_NAL_BLA_N_LP ||
      u == HEVC_NAL_CRA_NUT || u == HEVC_NAL_RADL_N || u == HEVC_NAL_RADL_R ||
      u == HEVC_NAL_RASL_N || u == HEVC_NAL_RASL_R

/-- Per-codec SPS type (`nal_sps` local in `BitstreamConvert`). -/
def nal_sps : Codec → Nat
  | .h264 => AVC_NAL_SPS
  | .hevc => HEVC_NAL_SPS

/-- Per-codec PPS type (`nal_pps` local in `BitstreamConvert`). -/
def nal_pps : Codec → Nat
  | .h264 => AVC_NAL_PPS
  | .hevc => HEVC_NAL_PPS

/-- Per-codec SEI type (`nal_sei` local in `BitstreamConvert`). -/
def nal_sei : Codec → Nat
  | .h264 => AVC_NAL_SEI
  | .hevc => HEVC_NAL_SEI_PFX

/-- One call to a `BitstreamAllocAndCopy` overload: the optional
`sps_pps` prologue argument (each call site other than the IDR-prologue
one passes `NULL, 0`), the NAL payload, and the `nal_type` argument.  Which
overload interprets a call (the 5-argument `uint32_t*` one or the
7-argument `int*` one) is determined by the interpretation functions
`outBytes` / `outBytesU32` below, matching the call sites. -/
structure CopyCall where
  sps_pps : Option (List Nat)
  payload : List Nat
  nal_type : Nat
deriving Repr, DecidableEq

/-- Mirrors the 7-argument (`int*` size) `BitstreamAllocAndCopy` overload:
start-code size is 4 for the first NAL written to the buffer, 3 otherwise,
forced to 4 for `HEVC_NAL_UNSPEC62`; the optional `sps_pps` block is
copied before the start code.  (Allocation is modelled as always
succeeding.) -/
def BitstreamAllocAndCopyInt (out : List Nat) (sps_pps : Option (List Nat))
    (inNal : List Nat) (nal_type : Nat) : List Nat :=
  let offset := out.length
  let hdr : List Nat :=
    if nal_type = HEVC_NAL_UNSPEC62 then [0, 0, 0, 1]
    else if offset = 0 then [0, 0, 0, 1]
    else [0, 0, 1]
  out ++ sps_pps.getD [] ++ hdr ++ inNal

/-- Mirrors the 5-argument (`uint32_t*` size) `BitstreamAllocAndCopy`
overload: as the `int*` overload but with no `sps_pps` block and with a
5-byte layered start code `00 00 01 (63<<1) 01` for `HEVC_NAL_UNSPEC63`. -/
def BitstreamAllocAndCopyU32 (out : List Nat) (inNal : List Nat) (nal_type : Nat) :
    List Nat :=
  let offset := out.length
  let hdr : List Nat :=
    if nal_type = HEVC_NAL_UNSPEC62 then [0, 0, 0, 1]
    else if nal_type = HEVC_NAL_UNSPEC63 then [0, 0, 1, HEVC_NAL_UNSPEC63 * 2, 1]
    else if offset = 0 then [0, 0, 0, 1]
    else [0, 0, 1]
  out ++ hdr ++ inNal

/-- Interpret a trace of copy calls, all through the `int*` overload, as the
byte contents of the output buffer (the situation in single-track
`BitstreamConvert`). -/
def outBytes (calls : List CopyCall) : List Nat :=
  calls.foldl (fun acc c => BitstreamAllocAndCopyInt acc c.sps_pps c.payload c.nal_type) []

/-- Interpret a trace of copy calls from the dual-track `Convert`, where the
direct call sites use the `uint32_t*` overload (these are the calls with
`sps_pps = none` and types reachable there) while the nested
`ProcessSeiPrefixWrap` / `ProcessDoViRpuWrap` / `AddDoViRpuNaluWrap` calls
go through the `int*` overload.  The two overloads agree on every type
except `HEVC_NAL_UNSPEC63`, which only the direct sites pass, so the
dual-track buffer is the `uint32_t*` interpretation of all calls. -/
def outBytesU32 (calls : List CopyCall) : List Nat :=
  calls.foldl (fun acc c => BitstreamAllocAndCopyU32 acc c.payload c.nal_type) []

/-- Converter configuration: the members of `CBitstreamConverter` that are
fixed by `Open` and the `Set...` methods and are only read during
`Convert`.  `sps_pps_data`/`length_size` model `m_sps_pps_context`'s
`sps_pps_data`/`size` and `length_size` fields. -/
structure BCConfig where
  codec : Codec
  length_size : Nat
  sps_pps_data : List Nat
  convert_dovi : DOVIMode
  removeDovi : Bool
  removeHdr10Plus : Bool
  convert_Hdr10Plus : Bool
  prefer_Hdr10Plus : Bool
  dual_priority_Hdr10Plus : Bool
  intial_hdrType : StreamHdrType
  convert_bitstream : Bool
  convert_bytestream : Bool
  convert_3byteTo4byteNALSize : Bool
deriving Repr, DecidableEq

/-- Oracles for the external collaborators called during `Convert`:
`doviConvert mode nal` models `convert_dovi_rpu_nal` (which returns a fresh
RPU byte buffer exactly when libdovi parses a profile-7 header and
`dovi_convert_rpu_with_mode` succeeds, and NULL otherwise);
`hdr10plus` models `CHevcSei::ExtractHdr10Plus` (the metadata is kept as an
opaque byte blob); `removeH10` models
`CHevcSei::RemoveHdr10PlusFromSeiNalu`; `synth` models
`create_rpu_nalu_for_hdr10plus` (with the peak-brightness source and the
running HDR static metadata folded into the oracle). -/
structure ExtLibs where
  doviConvert : DOVIMode → List Nat → Option (List Nat)
  hdr10plus : List Nat → Option (List Nat)
  removeH10 : List Nat → List Nat
  synth : List Nat → List Nat

/-- Trivial oracle instantiation used for concrete evaluations. -/
def extTrivial : ExtLibs :=
  { doviConvert := fun _ _ => none
    hdr10plus := fun _ => none
    removeH10 := fun _ => []
    synth := fun _ => [] }

/-- The mutable converter state threaded through `Convert` calls:
`first_idr`/`idr_sps_pps_seen` are `m_sps_pps_context.first_idr` /
`.idr_sps_pps_seen`, `start_decode` is `m_start_decode`, `first_frame` is
`m_first_frame`, and the remaining fields are the `m_hints` members the
converter writes (`hints.hdrType`, `hints.dovi.el_present_flag`,
`hints.dovi.bl_present_flag`, `hints.dovi.dv_profile`,
`hints.dovi.dv_bl_signal_compatibility_id`).  The HDR static-metadata
aggregate and the process-info/data-cache publications are sinks not
observed by any claim and are not modelled. -/
structure BCState where
  first_idr : Bool
  idr_sps_pps_seen : Bool
  start_decode : Bool
  first_frame : Bool
  hdrType : StreamHdrType
  el_present_flag : Bool
  bl_present_flag : Bool
  dv_profile : Nat
  dv_bl_signal_compatibility_id : Nat
deriving Repr, DecidableEq

/-- Mirrors `CBitstreamConverter::ProcessSeiPrefix` (MDCV/CLL aggregation
and data-cache publication omitted; HDR10+ handling as in the source).
Returns the updated state, the updated `hdr10plus_meta` /
`convert_hdr10plus_meta` pair (modelled as an `Option`), and the emitted
copy calls. -/
def processSeiNal (cfg : BCConfig) (ext : ExtLibs) (st : BCState)
    (meta : Option (List Nat)) (nal : List Nat) :
    BCState × Option (List Nat) × List CopyCall :=
  match ext.hdr10plus nal with
  | none => (st, meta, [⟨none, nal, HEVC_NAL_SEI_PFX⟩])
  | some res =>
    let isDual := cfg.intial_hdrType = StreamHdrType.HDR_TYPE_DOLBYVISION
    let considerAsHdr10Plus :=
      ¬isDual ∨ cfg.dual_priority_Hdr10Plus ∨ cfg.prefer_Hdr10Plus
    let st1 :=
      if st.first_frame ∧ considerAsHdr10Plus then
        { st with hdrType := StreamHdrType.HDR_TYPE_HDR10PLUS }
      else st
    let convert := considerAsHdr10Plus ∧ cfg.convert_Hdr10Plus ∧ ¬cfg.dual_priority_Hdr10Plus
    let meta' := if convert then some res else meta
    if convert ∨ cfg.removeHdr10Plus then
      let nalu := ext.removeH10 nal
      (st1, meta', if nalu = [] then [] else [⟨none, nalu, HEVC_NAL_SEI_PFX⟩])
    else (st1, meta', [⟨none, nal, HEVC_NAL_SEI_PFX⟩])

/-- Mirrors `CBitstreamConverter::ProcessDoViRpu` (the `get_dovi_rpu_info`
data-cache publication is a sink and is omitted).  On a successful
conversion the converted bytes replace the NAL and the hints are updated;
on failure or `MODE_NONE` the original RPU is copied and the hints are
untouched. -/
def processDoViRpu (cfg : BCConfig) (ext : ExtLibs) (st : BCState) (nal : List Nat) :
    BCState × List CopyCall :=
  if cfg.convert_dovi ≠ DOVIMode.MODE_NONE then
    match ext.doviConvert cfg.convert_dovi nal with
    | some newNal =>
      let st1 := { st with el_present_flag := false }
      let st2 :=
        if cfg.convert_dovi = DOVIMode.MODE_TO81 then
          { st1 with dv_profile := 8, dv_bl_signal_compatibility_id := 1 }
        else st1
      (st2, [⟨none, newNal, HEVC_NAL_UNSPEC62⟩])
    | none => (st, [⟨none, nal, HEVC_NAL_UNSPEC62⟩])
  else (st, [⟨none, nal, HEVC_NAL_UNSPEC62⟩])

/-- Mirrors `CBitstreamConverter::AddDoViRpuNalu` (hints fields
`dv_version_major/minor`, `dv_level`, `rpu_present_flag` are set by the
source but observed by no claim, so only the tracked fields appear). -/
def AddDoViRpuNalu (ext : ExtLibs) (st : BCState) (meta : List Nat) :
    BCState × List CopyCall :=
  let nalu := ext.synth meta
  if nalu = [] then (st, [])
  else
    let st1 :=
      if st.first_frame then
        { st with hdrType := StreamHdrType.HDR_TYPE_DOLBYVISION,
                  dv_profile := 8, el_present_flag := false,
                  bl_present_flag := true, dv_bl_signal_compatibility_id := 1 }
      else st
    (st1, [⟨none, nalu, HEVC_NAL_UNSPEC62⟩])

/-- Big-endian value of a byte list, modelling
`for (nal_size = 0, i = 0; i < length_size; i++) nal_size = (nal_size << 8) | buf[i];`
(`|` on a fresh byte equals `+` since bytes are below 256). -/
def beBytes (l : List Nat) : Nat :=
  l.foldl (fun a b => a * 256 + b) 0

/-- NAL unit type extraction from the first payload byte:
`*buf & 0x1f` for H.264, `(*buf >> 1) & 0x3f` for HEVC. -/
def unitTypeOf (c : Codec) (b : Nat) : Nat :=
  match c with
  | .h264 => b % 32
  | .hevc => (b / 2) % 64

/-- The declared-length sanity check of the `BitstreamConvert` loop:
`buf + nal_size > buf_end || nal_size <= 0` where `nal_size` is a 32-bit
`int` assembled from `length_size` big-endian bytes (for `length_size = 4`
a raw value at or above `2^31` is a non-positive `int`). -/
def nalSizeBad (cfg : BCConfig) (raw : Nat) (remaining : Nat) : Bool :=
  raw == 0 || (cfg.length_size == 4 && decide (2 ^ 31 ≤ raw)) || decide (remaining < raw)

/-- The condition under which `BitstreamConvert` latches `m_start_decode`
for a NAL: SPS, IDR, or SEI with a recovery point (source line
`if (!m_start_decode && (unit_type == nal_sps || IsIDR(unit_type) || (unit_type == nal_sei && has_sei_recovery_point(...))))`). -/
def startTrigger (cfg : BCConfig) (u : Nat) (nal : List Nat) : Bool :=
  u == nal_sps cfg.codec || IsIDR cfg.codec u ||
    (u == nal_sei cfg.codec && has_sei_recovery_point nal)

/-- The per-NAL body of the `BitstreamConvert` do-while loop, after the
length/bounds checks: update `idr_sps_pps_seen` and `m_start_decode`,
then either prepend the SPS/PPS prologue to a first IDR or re-arm and
dispatch on the unit type. -/
def btsNalStep (cfg : BCConfig) (ext : ExtLibs) (st : BCState)
    (meta : Option (List Nat)) (u : Nat) (nal : List Nat) :
    BCState × Option (List Nat) × List CopyCall :=
  let seen1 := st.idr_sps_pps_seen ||
    (st.first_idr && (u == nal_sps cfg.codec || u == nal_pps cfg.codec))
  let sd := st.start_decode || startTrigger cfg u nal
  let st0 := { st with idr_sps_pps_seen := seen1, start_decode := sd }
  if st0.first_idr ∧ IsIDR cfg.codec u ∧ st0.idr_sps_pps_seen = false then
    ({ st0 with first_idr := false }, meta, [⟨some cfg.sps_pps_data, nal, u⟩])
  else
    let st1 :=
      if st0.first_idr = false ∧ IsSlice cfg.codec u then
        { st0 with first_idr := true, idr_sps_pps_seen := false }
      else st0
    if u = HEVC_NAL_SEI_PFX then processSeiNal cfg ext st1 meta nal
    else if u = HEVC_NAL_UNSPEC62 then
      if ¬cfg.removeDovi ∧ meta = none then
        let r := processDoViRpu cfg ext st1 nal
        (r.1, meta, r.2)
      else (st1, meta, [])
    else if u = HEVC_NAL_UNSPEC63 then
      if ¬cfg.removeDovi ∧ meta = none ∧ cfg.convert_dovi = DOVIMode.MODE_NONE then
        (st1, meta, [⟨none, nal, u⟩])
      else (st1, meta, [])
    else (st1, meta, [⟨none, nal, u⟩])

/-- The `BitstreamConvert` do-while loop, fueled (each iteration consumes
at least `length_size + 1 ≥ 1` bytes of `rem`, so fuel `rem.length + 1`
never runs out).  Returns `(ok, state, meta, calls)`; `ok = false` is the
`goto fail` path, on which the accumulated output is freed by the caller
but the state mutations made so far persist (they are class members in the
source). -/
def btsLoop (cfg : BCConfig) (ext : ExtLibs) :
    Nat → BCState → Option (List Nat) → List CopyCall → List Nat →
    Bool × BCState × Option (List Nat) × List CopyCall
  | 0, st, meta, calls, _ => (false, st, meta, calls)
  | fuel + 1, st, meta, calls, rem =>
    if rem.length < cfg.length_size then (false, st, meta, calls)
    else
      let raw := beBytes (rem.take cfg.length_size)
      let after := rem.drop cfg.length_size
      let u := unitTypeOf cfg.codec (after.getD 0 0)
      if nalSizeBad cfg raw after.length then (false, st, meta, calls)
      else
        let r := btsNalStep cfg ext st meta u (after.take raw)
        let rem' := after.drop raw
        if rem' = [] then (true, r.1, r.2.1, calls ++ r.2.2)
        else btsLoop cfg ext fuel r.1 r.2.1 (calls ++ r.2.2) rem'

/-- Mirrors `CBitstreamConverter::BitstreamConvert`: run the NAL loop; on
success append the synthesized DoVi RPU when HDR10+ conversion picked up
metadata, then latch `m_first_frame = false`; on failure free the output
(`calls` become `[]` for the caller) but keep the state mutations. -/
def BitstreamConvert (cfg : BCConfig) (ext : ExtLibs) (st : BCState)
    (packet : List Nat) : Bool × List CopyCall × BCState :=
  let r := btsLoop cfg ext (packet.length + 1) st none [] packet
  match r with
  | (false, st', _, _) => (false, [], st')
  | (true, st', metaF, calls) =>
    let post :=
      match metaF with
      | some m => AddDoViRpuNalu ext st' m
      | none => (st', [])
    (true, calls ++ post.2, { post.1 with first_frame := false })

/-- Declarative scan of the NALs that the `BitstreamConvert` loop actually
visits: the `(unit_type, payload)` pairs of the successive length-prefixed
NALs of the packet, stopping (exclusively) at the first malformed length.
Same recursion structure as `btsLoop`, without the state effects. -/
def nalScan (cfg : BCConfig) : Nat → List Nat → List (Nat × List Nat)
  | 0, _ => []
  | fuel + 1, rem =>
    if rem.length < cfg.length_size then []
    else
      let raw := beBytes (rem.take cfg.length_size)
      let after := rem.drop cfg.length_size
      let u := unitTypeOf cfg.codec (after.getD 0 0)
      if nalSizeBad cfg raw after.length then []
      else
        let rem' := after.drop raw
        (u, after.take raw) :: (if rem' = [] then [] else nalScan cfg fuel rem')

/-- Whether the packet iterates to the end without tripping the
length/bounds checks of the `BitstreamConvert` loop (the `goto fail`
conditions). -/
def packetParseOk (cfg : BCConfig) : Nat → List Nat → Bool
  | 0, _ => false
  | fuel + 1, rem =>
    if rem.length < cfg.length_size then false
    else
      let raw := beBytes (rem.take cfg.length_size)
      let after := rem.drop cfg.length_size
      if nalSizeBad cfg raw after.length then false
      else
        let rem' := after.drop raw
        if rem' = [] then true else packetParseOk cfg fuel rem'

/-- Mirrors `CBitstreamConverter::ResetStartDecode`. -/
def ResetStartDecode (st : BCState) : BCState :=
  { st with start_decode := false }

/-- Mirrors `CBitstreamConverter::CanStartDecode`. -/
def CanStartDecode (st : BCState) : Bool :=
  st.start_decode

/-- The buffer-related members of `CBitstreamConverter` around a `Convert`
call: `m_convertBuffer`/`m_convertSize`, `m_inputBuffer`/`m_inputSize`,
the `m_combine` latch set by the dual-track `Convert`, and the per-NAL
state `bc`. -/
structure ConvState where
  bc : BCState
  convertBuffer : Option (List Nat)
  convertSize : Nat
  inputBuffer : Option (List Nat)
  inputSize : Nat
  combine : Bool
deriving Repr, DecidableEq

/-- Mirrors `CBitstreamConverter::GetConvertBuffer`. -/
def GetConvertBuffer (cfg : BCConfig) (st : ConvState) : Option (List Nat) :=
  if (cfg.convert_bitstream || cfg.convert_bytestream ||
      cfg.convert_3byteTo4byteNALSize || st.combine) && st.convertBuffer.isSome
  then st.convertBuffer
  else st.inputBuffer

/-- Mirrors `CBitstreamConverter::GetConvertSize`. -/
def GetConvertSize (cfg : BCConfig) (st : ConvState) : Nat :=
  if (cfg.convert_bitstream || cfg.convert_bytestream ||
      cfg.convert_3byteTo4byteNALSize || st.combine) && st.convertBuffer.isSome
  then st.convertSize
  else st.inputSize

/-- Mirrors the single-track `CBitstreamConverter::Convert(pData, iSize, pts)`
for the `m_to_annexb && m_convert_bitstream` configuration (the bitstream
to Annex-B conversion path; the passthrough and reverse paths are separate
branches of the source not exercised by the claims).  A `none` packet is
the NULL `pData` case. -/
def Convert1 (cfg : BCConfig) (ext : ExtLibs) (st : ConvState)
    (packet : Option (List Nat)) : Bool × ConvState :=
  let st0 : ConvState :=
    { st with convertBuffer := none, convertSize := 0,
              inputBuffer := none, inputSize := 0 }
  match packet with
  | none => (false, st0)
  | some pData =>
    let r := BitstreamConvert cfg ext st0.bc pData
    if r.1 ∧ r.2.1 ≠ [] then
      (true, { st0 with bc := r.2.2, convertBuffer := some (outBytes r.2.1),
                        convertSize := (outBytes r.2.1).length })
    else (false, { st0 with bc := r.2.2 })

/-- Body of the dual-track base-layer loop
(`while (end - buf > 4) { ... }` over the BL packet): 4-byte big-endian
lengths clamped by `min`, HEVC unit types, SEI prefix handling, deferral
of the type `AVC_NAL_END_SEQUENCE` (= 10) case, a copy for everything
else, and the unconditional `bl_present_flag = true`.  Returns
`(state, meta, deferred-eos, calls)`. -/
def dualBlLoop (cfg : BCConfig) (ext : ExtLibs) :
    Nat → BCState → Option (List Nat) → Option (List Nat) → List CopyCall →
    List Nat → BCState × Option (List Nat) × Option (List Nat) × List CopyCall
  | 0, st, meta, eos, calls, _ => (st, meta, eos, calls)
  | fuel + 1, st, meta, eos, calls, rem =>
    if rem.length ≤ 4 then (st, meta, eos, calls)
    else
      let size := min (beBytes (rem.take 4)) (rem.length - 4)
      let nal := (rem.drop 4).take size
      let nal_type := ((rem.getD 4 0) / 2) % 64
      let r :=
        if nal_type = HEVC_NAL_SEI_PFX then
          let p := processSeiNal cfg ext st meta nal
          (p.1, p.2.1, eos, p.2.2)
        else if nal_type = AVC_NAL_END_SEQUENCE then (st, meta, some nal, [])
        else (st, meta, eos, [⟨none, nal, nal_type⟩])
      let st' := { r.1 with bl_present_flag := true }
      dualBlLoop cfg ext fuel st' r.2.1 r.2.2.1 (calls ++ r.2.2.2) (rem.drop (4 + size))

/-- Body of the dual-track enhancement-layer loop: DoVi RPU (62) is
processed unless removed or about to be replaced by HDR10+ conversion;
every other NAL is packaged as `HEVC_NAL_UNSPEC63` when kept; and
`el_present_flag = true` is set unconditionally per iteration. -/
def dualElLoop (cfg : BCConfig) (ext : ExtLibs) :
    Nat → BCState → Option (List Nat) → List CopyCall → List Nat →
    BCState × List CopyCall
  | 0, st, _, calls, _ => (st, calls)
  | fuel + 1, st, meta, calls, rem =>
    if rem.length ≤ 4 then (st, calls)
    else
      let size := min (beBytes (rem.take 4)) (rem.length - 4)
      let nal := (rem.drop 4).take size
      let nal_type := ((rem.getD 4 0) / 2) % 64
      let r :=
        if nal_type = HEVC_NAL_UNSPEC62 then
          if ¬cfg.removeDovi ∧ meta = none then processDoViRpu cfg ext st nal
          else (st, [])
        else
          if ¬cfg.removeDovi ∧ meta = none ∧ cfg.convert_dovi = DOVIMode.MODE_NONE then
            (st, [⟨none, nal, HEVC_NAL_UNSPEC63⟩])
          else (st, [])
      let st' := { r.1 with el_present_flag := true }
      dualElLoop cfg ext fuel st' meta (calls ++ r.2) (rem.drop (4 + size))

/-- Mirrors the dual-track
`CBitstreamConverter::Convert(pData_bl, iSize_bl, pData_el, iSize_el, pts)`
for the `m_convert_bitstream = true` configuration (where `buf` walks the
BL and EL packets directly; the `avc_parse_nal_units` repackaging branch
for byte-stream input is not modelled).  `none` packets are the NULL
pointer cases, which skip the whole body.  The function always returns
`true`, latches `m_first_frame = false`, and on the non-NULL path appends
the synthesized RPU and the deferred end-of-sequence NAL, sets
`m_convertSize` and the `m_combine` latch. -/
def ConvertDual (cfg : BCConfig) (ext : ExtLibs) (st : ConvState)
    (bl el : Option (List Nat)) : Bool × ConvState :=
  let st0 : ConvState :=
    { st with convertBuffer := none, convertSize := 0,
              inputBuffer := none, inputSize := 0 }
  match bl, el with
  | some blData, some elData =>
    let rb := dualBlLoop cfg ext (blData.length + 1) st0.bc none none [] blData
    let re := dualElLoop cfg ext (elData.length + 1) rb.1 rb.2.1 rb.2.2.2 elData
    let withRpu :=
      match rb.2.1 with
      | some m =>
        let a := AddDoViRpuNalu ext re.1 m
        (a.1, re.2 ++ a.2)
      | none => (re.1, re.2)
    let withEos : BCState × List CopyCall :=
      match rb.2.2.1 with
      | some eosNal =>
        (withRpu.1, withRpu.2 ++ [⟨none, eosNal, AVC_NAL_END_SEQUENCE⟩])
      | none => withRpu
    let out := outBytesU32 withEos.2
    (true,
      { st0 with
          bc := { withEos.1 with first_frame := false },
          convertBuffer := if withEos.2 = [] then none else some out,
          convertSize := out.length,
          combine := true })
  | _, _ =>
    (true, { st0 with bc := { st0.bc with first_frame := false } })

/-- Mirrors `CBitstreamConverter::Open` as a success predicate on
`(codec, to_annexb, extradata)`.  Side effects (prologue construction,
AVCC synthesis, the 3-to-4-byte patch, flag setting) are not needed by the
claim; the dynamic-buffer allocation in the Annex-B-input branch is
modelled as succeeding.  `none` is missing extradata (`GetData() == NULL`). -/
def OpenModel (codec : Codec) (to_annexb : Bool) (extradata : Option (List Nat)) :
    Bool :=
  match extradata with
  | none => false
  | some d =>
    match codec with
    | .h264 =>
      if d.length < 7 then false
      else if to_annexb then
        d.getD 0 0 == 1
      else
        if d.getD 0 0 ≠ 1 then
          (d.getD 0 0 == 0 && d.getD 1 0 == 0 && d.getD 2 0 == 0 && d.getD 3 0 == 1) ||
          (d.getD 0 0 == 0 && d.getD 1 0 == 0 && d.getD 2 0 == 1)
        else true
    | .hevc =>
      if d.length < 23 then false
      else if to_annexb then
        !(d.getD 0 0 == 0 && d.getD 1 0 == 0 && decide (d.getD 2 0 ≤ 1))
      else
        if d.getD 0 0 ≠ 1 then false
        else true

/-- One public read operation on the bit reader. -/
inductive ReadOp where
  | bits : Nat → ReadOp
  | ue : ReadOp
  | se : ReadOp
deriving Repr, DecidableEq

/-- Run one read operation, returning its value as an `Int` (the unsigned
reads embedded canonically). -/
def runOp (bs : nal_bitstream) : ReadOp → Int × nal_bitstream
  | .bits n => let r := nal_bs_read bs n; ((r.1 : Int), r.2)
  | .ue => let r := nal_bs_read_ue bs; ((r.1 : Int), r.2)
  | .se => nal_bs_read_se bs

/-- Values returned by a sequence of read operations. -/
def runOps (bs : nal_bitstream) : List ReadOp → List Int
  | [] => []
  | op :: ops => let r := runOp bs op; r.1 :: runOps r.2 ops

/-- A converter state as it stands right after `Open(to_annexb = true)` on a
profile-7 dual-layer HEVC stream: `first_idr = 1`, `idr_sps_pps_seen = 0`
(set by `BitstreamConvertInit*`), `m_start_decode = true` (set by the
constructor), `m_first_frame = true`, and hints advertising Dolby Vision
profile 7 with an enhancement layer. -/
def bcOpenState : BCState :=
  { first_idr := true, idr_sps_pps_seen := false, start_decode := true,
    first_frame := true, hdrType := StreamHdrType.HDR_TYPE_DOLBYVISION,
    el_present_flag := true, bl_present_flag := false, dv_profile := 7,
    dv_bl_signal_compatibility_id := 0 }

/-- A baseline configuration: H.264, 1-byte NAL lengths, a nonempty SPS/PPS
prologue, no DoVi/HDR10+ transformations, bitstream conversion active. -/
def cfgAvcBase : BCConfig :=
  { codec := Codec.h264, length_size := 1, sps_pps_data := [0, 0, 0, 1, 103, 100],
    convert_dovi := DOVIMode.MODE_NONE, removeDovi := false,
    removeHdr10Plus := false, convert_Hdr10Plus := false,
    prefer_Hdr10Plus := false, dual_priority_Hdr10Plus := false,
    intial_hdrType := StreamHdrType.HDR_TYPE_NONE,
    convert_bitstream := true, convert_bytestream := false,
    convert_3byteTo4byteNALSize := false }

/-- A baseline HEVC configuration with 1-byte NAL lengths. -/
def cfgHevcBase : BCConfig :=
  { cfgAvcBase with codec := Codec.hevc,
                    intial_hdrType := StreamHdrType.HDR_TYPE_DOLBYVISION }

/-- HEVC configuration with `remove_dovi = true`. -/
def cfgHevcRemoveDovi : BCConfig :=
  { cfgHevcBase with removeDovi := true }

/-- HEVC configuration for the dual-track `Convert` (4-byte NAL lengths). -/
def cfgHevcDual : BCConfig :=
  { cfgHevcBase with length_size := 4 }

/-- A full converter state right after `Open`. -/
def convOpenState : ConvState :=
  { bc := bcOpenState, convertBuffer := none, convertSize := 0,
    inputBuffer := none, inputSize := 0, combine := false }

/-- An oracle instantiation whose DoVi RPU conversion always succeeds,
returning a fixed converted byte blob. -/
def extConvertOk : ExtLibs :=
  { extTrivial with doviConvert := fun _ _ => some [124, 0, 9] }

/-- Alignment invariant for the emulation-prevention simulation: the two
data streams are the original and the one with a 0x03 inserted after a
`00 00` pair, at matching read positions.  The stages record how much of
the `00 00` pair has already been consumed, together with the cache facts
(low byte / low 16 bits zero) that the consumed zeros guarantee; once the
inserted 0x03 has been discarded the streams coincide. -/
def PairInv (v d1 d2 : List Nat) (c : Nat) : Prop :=
  (∃ w, d1 = w ++ 0 :: 0 :: v ∧ d2 = w ++ 0 :: 0 :: 3 :: v)
  ∨ (d1 = 0 :: v ∧ d2 = 0 :: 3 :: v ∧ c % 256 = 0)
  ∨ (d1 = v ∧ d2 = 3 :: v ∧ c % 65536 = 0)
  ∨ d1 = d2

/-- The reader-state simulation relation for emulation-prevention
insertion: equal bit positions and caches, data related by `PairInv`. -/
def StRel (v : List Nat) (s1 s2 : nal_bitstream) : Prop :=
  s1.head = s2.head ∧ s1.cache = s2.cache ∧ PairInv v s1.data s2.data s1.cache

/-- The prologue-prepend condition tested by the `BitstreamConvert` loop
(`m_sps_pps_context.first_idr && IsIDR(unit_type) && !m_sps_pps_context.idr_sps_pps_seen`,
with `idr_sps_pps_seen` already updated by this NAL). -/
def prologueCond (cfg : BCConfig) (st : BCState) (u : Nat) : Prop :=
  st.first_idr = true ∧ IsIDR cfg.codec u = true ∧
    (st.idr_sps_pps_seen ||
      st.first_idr && (u == nal_sps cfg.codec || u == nal_pps cfg.codec)) = false

instance (cfg : BCConfig) (st : BCState) (u : Nat) :
    Decidable (prologueCond cfg st u) := by
  unfold prologueCond; infer_instance

/-- C4 counterexample: the claim asserts that a DV EL NAL (type 63) gets the
5-byte layered start code from either `BitstreamAllocAndCopy` overload, but
the `int*`-size overload has no type-63 case: with a nonempty buffer it
writes the ordinary 3-byte start code, not `00 00 01 (63<<1) 01`. -/
theorem C4_counterexample :
    BitstreamAllocAndCopyInt [7] none [9] HEVC_NAL_UNSPEC63 = [7, 0, 0, 1, 9] ∧
    BitstreamAllocAndCopyInt [7] none [9] HEVC_NAL_UNSPEC63 ≠
      [7] ++ [0, 0, 1, 126, 1] ++ [9] := by
  constructor
  · decide
  · decide

/-- C4 amended: start-code framing written by the two
`BitstreamAllocAndCopy` overloads.  The `int*`-size overload writes 4 bytes
for an empty output buffer or for NAL type 62 and 3 bytes otherwise (no
5-byte case); the `uint32_t*`-size overload additionally writes the 5-byte
layered header `00 00 01 (63<<1) 01` for NAL type 63. -/
theorem C4_framing (out : List Nat) (sps : Option (List Nat)) (inNal : List Nat)
    (t : Nat) :
    BitstreamAllocAndCopyInt out sps inNal t =
      out ++ sps.getD [] ++
        (if t = HEVC_NAL_UNSPEC62 then [0, 0, 0, 1]
         else if out = [] then [0, 0, 0, 1] else [0, 0, 1]) ++ inNal ∧
    BitstreamAllocAndCopyU32 out inNal t =
      out ++
        (if t = HEVC_NAL_UNSPEC62 then [0, 0, 0, 1]
         else if t = HEVC_NAL_UNSPEC63 then [0, 0, 1, 126, 1]
         else if out = [] then [0, 0, 0, 1] else [0, 0, 1]) ++ inNal := by
  unfold BitstreamAllocAndCopyInt BitstreamAllocAndCopyU32
  constructor
  · by_cases h62 : t = HEVC_NAL_UNSPEC62 <;> by_cases hout : out = [] <;>
      simp [h62, hout, List.length_eq_zero]
  · by_cases h62 : t = HEVC_NAL_UNSPEC62 <;> by_cases h63 : t = HEVC_NAL_UNSPEC63 <;>
      by_cases hout : out = [] <;>
      simp [h62, h63, hout, List.length_eq_zero, HEVC_NAL_UNSPEC63]

/-- C8 counterexample: for HEVC in the to-Annex-B direction the claim says
`Open` returns false whenever the record's version byte is not 1, but the
source only rejects records whose first bytes look like an Annex-B start
code (`d[0]=0, d[1]=0, d[2]<=1`): a 23-byte record with version byte 2 is
accepted. -/
theorem C8_counterexample :
    OpenModel Codec.hevc true (some (2 :: List.replicate 22 0)) = true := by decide

/-- C8 amended: `Open` fails on missing or too-short records (7 bytes for
AVC, 23 for HEVC) in both directions; in the to-Annex-B direction the AVC
path succeeds exactly when the version byte is 1 while the HEVC path fails
exactly when the record starts with the Annex-B-like pattern
`00 00 0x` with `x <= 1` (the version byte is not checked); in the reverse
direction a version-1 record opens successfully. -/
theorem C8_open (codec : Codec) (b : Bool) (d : List Nat) :
    OpenModel codec b none = false ∧
    (d.length < 7 → OpenModel Codec.h264 b (some d) = false) ∧
    (d.length < 23 → OpenModel Codec.hevc b (some d) = false) ∧
    (7 ≤ d.length → OpenModel Codec.h264 true (some d) = (d.getD 0 0 == 1)) ∧
    (23 ≤ d.length → OpenModel Codec.hevc true (some d) =
      !(d.getD 0 0 == 0 && d.getD 1 0 == 0 && decide (d.getD 2 0 ≤ 1))) ∧
    (7 ≤ d.length → d.getD 0 0 = 1 → OpenModel Codec.h264 false (some d) = true) ∧
    (23 ≤ d.length → d.getD 0 0 = 1 → OpenModel Codec.hevc false (some d) = true) := by
  refine ⟨?_, ?_, ?_, ?_, ?_, ?_, ?_⟩
  · cases codec <;> rfl
  · intro h; simp [OpenModel, h]
  · intro h; simp [OpenModel, h]
  · intro h; simp [OpenModel, Nat.not_lt.mpr h]
  · intro h; simp [OpenModel, Nat.not_lt.mpr h]
  · intro h h1; simp only [List.getD, List.get?_eq_getElem?] at h1
    simp [OpenModel, Nat.not_lt.mpr h, h1]
  · intro h h1; simp only [List.getD, List.get?_eq_getElem?] at h1
    simp [OpenModel, Nat.not_lt.mpr h, h1]

/-- C8 witness: the amended characterization applied to concrete records. -/
theorem C8_open_witness :
    OpenModel Codec.h264 true (some [1, 100, 0, 40, 255, 225, 0]) = true ∧
    OpenModel Codec.hevc false (some (1 :: List.replicate 22 0)) = true := by
  constructor
  · have h := (C8_open Codec.h264 true [1, 100, 0, 40, 255, 225, 0]).2.2.2.1
    rw [h (by decide)]; decide
  · exact (C8_open Codec.hevc false (1 :: List.replicate 22 0)).2.2.2.2.2.2
      (by decide) (by decide)

/-- C10: the dual-track `Convert` returns `true` when either input pointer
is NULL; the body is skipped, so the convert buffer stays empty and the
reported size is 0, yet `m_first_frame` is still latched to `false`. -/
theorem C10_null_inputs (cfg : BCConfig) (ext : ExtLibs) (st : ConvState)
    (p : Option (List Nat)) :
    ((ConvertDual cfg ext st none p).1 = true ∧
     (ConvertDual cfg ext st none p).2.convertBuffer = none ∧
     (ConvertDual cfg ext st none p).2.convertSize = 0 ∧
     GetConvertBuffer cfg (ConvertDual cfg ext st none p).2 = none ∧
     GetConvertSize cfg (ConvertDual cfg ext st none p).2 = 0 ∧
     (ConvertDual cfg ext st none p).2.bc.first_frame = false) ∧
    ((ConvertDual cfg ext st p none).1 = true ∧
     (ConvertDual cfg ext st p none).2.convertBuffer = none ∧
     (ConvertDual cfg ext st p none).2.convertSize = 0 ∧
     GetConvertBuffer cfg (ConvertDual cfg ext st p none).2 = none ∧
     GetConvertSize cfg (ConvertDual cfg ext st p none).2 = 0 ∧
     (ConvertDual cfg ext st p none).2.bc.first_frame = false) := by
  constructor
  · cases p <;> simp [ConvertDual, GetConvertBuffer, GetConvertSize]
  · cases p <;> simp [ConvertDual, GetConvertBuffer, GetConvertSize]

/-- C9: demonstration of the end-of-sequence deferral bug at the failing
input.  The dual-track BL loop compares the HEVC unit type against
`AVC_NAL_END_SEQUENCE` (= 10), so a real HEVC end-of-sequence NAL
(`EOS_NUT` = 36, first byte 0x48) is copied at its input position (first
conjunct: EOS comes out first, not last), while a reserved type-10 NAL is
the one that gets deferred to the end (second conjunct). -/
theorem C9_eos_not_deferred :
    (ConvertDual cfgHevcDual extTrivial convOpenState
        (some [0, 0, 0, 1, 72, 0, 0, 0, 2, 2, 0]) (some [])).2.convertBuffer =
      some [0, 0, 0, 1, 72, 0, 0, 1, 2, 0] ∧
    (ConvertDual cfgHevcDual extTrivial convOpenState
        (some [0, 0, 0, 1, 20, 0, 0, 0, 2, 2, 0]) (some [])).2.convertBuffer =
      some [0, 0, 0, 1, 2, 0, 0, 0, 1, 20] := by
  constructor
  · decide
  · decide

/-- `ProcessSeiPrefix` only writes `hints.hdrType` (besides the HDR static
metadata sinks): every other tracked state field is preserved. -/
theorem processSeiNal_flags (cfg : BCConfig) (ext : ExtLibs) (st : BCState)
    (meta : Option (List Nat)) (nal : List Nat) :
    (processSeiNal cfg ext st meta nal).1.first_idr = st.first_idr ∧
    (processSeiNal cfg ext st meta nal).1.idr_sps_pps_seen = st.idr_sps_pps_seen ∧
    (processSeiNal cfg ext st meta nal).1.start_decode = st.start_decode ∧
    (processSeiNal cfg ext st meta nal).1.first_frame = st.first_frame ∧
    (processSeiNal cfg ext st meta nal).1.el_present_flag = st.el_present_flag ∧
    (processSeiNal cfg ext st meta nal).1.bl_present_flag = st.bl_present_flag ∧
    (processSeiNal cfg ext st meta nal).1.dv_profile = st.dv_profile ∧
    (processSeiNal cfg ext st meta nal).1.dv_bl_signal_compatibility_id =
      st.dv_bl_signal_compatibility_id := by
  unfold processSeiNal
  cases h : ext.hdr10plus nal <;> simp [h]
  split <;> split <;> simp

/-- `ProcessSeiPrefix` never passes an SPS/PPS prologue block to
`BitstreamAllocAndCopy`. -/
theorem processSeiNal_no_prologue (cfg : BCConfig) (ext : ExtLibs) (st : BCState)
    (meta : Option (List Nat)) (nal : List Nat) :
    ((processSeiNal cfg ext st meta nal).2.2.any fun c => c.sps_pps.isSome) = false := by
  unfold processSeiNal
  cases h : ext.hdr10plus nal <;> simp [h]
  split
  · split <;> simp
  · simp

/-- `ProcessDoViRpu` preserves the IDR/decode-start bookkeeping and
`first_frame`, and only ever lowers `el_present_flag` (never raises it),
only ever sets `dv_profile`/`dv_bl_signal_compatibility_id` to `8`/`1`. -/
theorem processDoViRpu_flags (cfg : BCConfig) (ext : ExtLibs) (st : BCState)
    (nal : List Nat) :
    (processDoViRpu cfg ext st nal).1.first_idr = st.first_idr ∧
    (processDoViRpu cfg ext st nal).1.idr_sps_pps_seen = st.idr_sps_pps_seen ∧
    (processDoViRpu cfg ext st nal).1.start_decode = st.start_decode ∧
    (processDoViRpu cfg ext st nal).1.first_frame = st.first_frame ∧
    ((processDoViRpu cfg ext st nal).1.el_present_flag = st.el_present_flag ∨
     (processDoViRpu cfg ext st nal).1.el_present_flag = false) ∧
    ((processDoViRpu cfg ext st nal).1.dv_profile = st.dv_profile ∨
     (processDoViRpu cfg ext st nal).1.dv_profile = 8) ∧
    ((processDoViRpu cfg ext st nal).1.dv_bl_signal_compatibility_id =
        st.dv_bl_signal_compatibility_id ∨
     (processDoViRpu cfg ext st nal).1.dv_bl_signal_compatibility_id = 1) := by
  unfold processDoViRpu
  split
  · cases h : ext.doviConvert cfg.convert_dovi nal <;> simp [h]
    split <;> simp
  · simp

/-- `ProcessDoViRpu` never passes an SPS/PPS prologue block. -/
theorem processDoViRpu_no_prologue (cfg : BCConfig) (ext : ExtLibs) (st : BCState)
    (nal : List Nat) :
    ((processDoViRpu cfg ext st nal).2.any fun c => c.sps_pps.isSome) = false := by
  unfold processDoViRpu
  split
  · cases h : ext.doviConvert cfg.convert_dovi nal <;> simp [h]
  · simp

/-- `AddDoViRpuNalu` preserves the IDR/decode-start bookkeeping and only
lowers `el_present_flag`. -/
theorem AddDoViRpuNalu_flags (ext : ExtLibs) (st : BCState) (meta : List Nat) :
    (AddDoViRpuNalu ext st meta).1.first_idr = st.first_idr ∧
    (AddDoViRpuNalu ext st meta).1.idr_sps_pps_seen = st.idr_sps_pps_seen ∧
    (AddDoViRpuNalu ext st meta).1.start_decode = st.start_decode ∧
    (AddDoViRpuNalu ext st meta).1.first_frame = st.first_frame ∧
    ((AddDoViRpuNalu ext st meta).1.el_present_flag = st.el_present_flag ∨
     (AddDoViRpuNalu ext st meta).1.el_present_flag = false) := by
  unfold AddDoViRpuNalu
  by_cases h : ext.synth meta = []
  · simp [h]
  · by_cases hf : st.first_frame = true <;> simp [h, hf]

/-- Projection of `processSeiNal_flags` used by the simplifier. -/
theorem processSeiNal_start_decode (cfg : BCConfig) (ext : ExtLibs) (st : BCState)
    (meta : Option (List Nat)) (nal : List Nat) :
    (processSeiNal cfg ext st meta nal).1.start_decode = st.start_decode :=
  (processSeiNal_flags cfg ext st meta nal).2.2.1

/-- Projection of `processSeiNal_flags` used by the simplifier. -/
theorem processSeiNal_first_idr (cfg : BCConfig) (ext : ExtLibs) (st : BCState)
    (meta : Option (List Nat)) (nal : List Nat) :
    (processSeiNal cfg ext st meta nal).1.first_idr = st.first_idr :=
  (processSeiNal_flags cfg ext st meta nal).1

/-- Projection of `processSeiNal_flags` used by the simplifier. -/
theorem processSeiNal_seen (cfg : BCConfig) (ext : ExtLibs) (st : BCState)
    (meta : Option (List Nat)) (nal : List Nat) :
    (processSeiNal cfg ext st meta nal).1.idr_sps_pps_seen = st.idr_sps_pps_seen :=
  (processSeiNal_flags cfg ext st meta nal).2.1

/-- Projection of `processSeiNal_flags` used by the simplifier. -/
theorem processSeiNal_el (cfg : BCConfig) (ext : ExtLibs) (st : BCState)
    (meta : Option (List Nat)) (nal : List Nat) :
    (processSeiNal cfg ext st meta nal).1.el_present_flag = st.el_present_flag :=
  (processSeiNal_flags cfg ext st meta nal).2.2.2.2.1

/-- Projection of `processSeiNal_flags` used by the simplifier. -/
theorem processSeiNal_profile (cfg : BCConfig) (ext : ExtLibs) (st : BCState)
    (meta : Option (List Nat)) (nal : List Nat) :
    (processSeiNal cfg ext st meta nal).1.dv_profile = st.dv_profile :=
  (processSeiNal_flags cfg ext st meta nal).2.2.2.2.2.2.1

/-- Projection of `processSeiNal_flags` used by the simplifier. -/
theorem processSeiNal_compat (cfg : BCConfig) (ext : ExtLibs) (st : BCState)
    (meta : Option (List Nat)) (nal : List Nat) :
    (processSeiNal cfg ext st meta nal).1.dv_bl_signal_compatibility_id =
      st.dv_bl_signal_compatibility_id :=
  (processSeiNal_flags cfg ext st meta nal).2.2.2.2.2.2.2

/-- Projection of `processDoViRpu_flags` used by the simplifier. -/
theorem processDoViRpu_start_decode (cfg : BCConfig) (ext : ExtLibs) (st : BCState)
    (nal : List Nat) :
    (processDoViRpu cfg ext st nal).1.start_decode = st.start_decode :=
  (processDoViRpu_flags cfg ext st nal).2.2.1

/-- Projection of `processDoViRpu_flags` used by the simplifier. -/
theorem processDoViRpu_first_idr (cfg : BCConfig) (ext : ExtLibs) (st : BCState)
    (nal : List Nat) :
    (processDoViRpu cfg ext st nal).1.first_idr = st.first_idr :=
  (processDoViRpu_flags cfg ext st nal).1

/-- Projection of `processDoViRpu_flags` used by the simplifier. -/
theorem processDoViRpu_seen (cfg : BCConfig) (ext : ExtLibs) (st : BCState)
    (nal : List Nat) :
    (processDoViRpu cfg ext st nal).1.idr_sps_pps_seen = st.idr_sps_pps_seen :=
  (processDoViRpu_flags cfg ext st nal).2.1

/-- Decode-start latch, one NAL: `m_start_decode` after a loop iteration is
its old value or-ed with the SPS / IDR / SEI-recovery-point trigger. -/
theorem btsNalStep_start_decode (cfg : BCConfig) (ext : ExtLibs) (st : BCState)
    (meta : Option (List Nat)) (u : Nat) (nal : List Nat) :
    (btsNalStep cfg ext st meta u nal).1.start_decode
      = (st.start_decode || startTrigger cfg u nal) := by
  unfold btsNalStep
  dsimp only
  split
  · rfl
  · split_ifs <;>
      simp [processSeiNal_start_decode, processDoViRpu_start_decode]

/-- First-IDR arming after one loop iteration: cleared when the prologue is
served, re-armed by a slice while disarmed, otherwise unchanged. -/
theorem btsNalStep_first_idr (cfg : BCConfig) (ext : ExtLibs) (st : BCState)
    (meta : Option (List Nat)) (u : Nat) (nal : List Nat) :
    (btsNalStep cfg ext st meta u nal).1.first_idr =
      (if prologueCond cfg st u then false
       else if st.first_idr = false ∧ IsSlice cfg.codec u = true then true
       else st.first_idr) := by
  unfold btsNalStep prologueCond
  dsimp only
  split_ifs <;>
    simp_all [processSeiNal_first_idr, processDoViRpu_first_idr]

/-- The SPS/PPS-seen flag after one loop iteration: raised when an SPS or
PPS passes while `first_idr` is armed, cleared by the re-arm, kept
otherwise. -/
theorem btsNalStep_seen (cfg : BCConfig) (ext : ExtLibs) (st : BCState)
    (meta : Option (List Nat)) (u : Nat) (nal : List Nat) :
    (btsNalStep cfg ext st meta u nal).1.idr_sps_pps_seen =
      (if prologueCond cfg st u then
        (st.idr_sps_pps_seen ||
          st.first_idr && (u == nal_sps cfg.codec || u == nal_pps cfg.codec))
       else if st.first_idr = false ∧ IsSlice cfg.codec u = true then false
       else
        (st.idr_sps_pps_seen ||
          st.first_idr && (u == nal_sps cfg.codec || u == nal_pps cfg.codec))) := by
  unfold btsNalStep prologueCond
  dsimp only
  split_ifs <;>
    simp_all [processSeiNal_seen, processDoViRpu_seen]

/-- The SPS/PPS prologue block is handed to `BitstreamAllocAndCopy` by a
loop iteration exactly when the prologue condition holds for that NAL. -/
theorem btsNalStep_prologue_iff (cfg : BCConfig) (ext : ExtLibs) (st : BCState)
    (meta : Option (List Nat)) (u : Nat) (nal : List Nat) :
    ((btsNalStep cfg ext st meta u nal).2.2.any fun c => c.sps_pps.isSome) =
      decide (prologueCond cfg st u) := by
  unfold btsNalStep prologueCond
  dsimp only
  split_ifs <;>
    simp_all [processSeiNal_no_prologue, processDoViRpu_no_prologue] <;> tauto

/-- When the prologue condition holds, the iteration emits exactly one copy
call: the prologue followed (inside the same buffer append) by the IDR
payload, and `first_idr` is cleared. -/
theorem btsNalStep_prologue_shape (cfg : BCConfig) (ext : ExtLibs) (st : BCState)
    (meta : Option (List Nat)) (u : Nat) (nal : List Nat)
    (h : prologueCond cfg st u) :
    (btsNalStep cfg ext st meta u nal).2.2 =
      [⟨some cfg.sps_pps_data, nal, u⟩] ∧
    (btsNalStep cfg ext st meta u nal).1.first_idr = false := by
  unfold prologueCond at h
  unfold btsNalStep
  dsimp only
  rw [if_pos ⟨h.1, h.2.1, h.2.2⟩]
  simp

/-- With `m_convert_Hdr10Plus = false`, `ProcessSeiPrefix` leaves the
HDR10+ conversion metadata untouched. -/
theorem processSeiNal_meta (cfg : BCConfig) (ext : ExtLibs) (st : BCState)
    (meta : Option (List Nat)) (nal : List Nat)
    (h : cfg.convert_Hdr10Plus = false) :
    (processSeiNal cfg ext st meta nal).2.1 = meta := by
  unfold processSeiNal
  cases hx : ext.hdr10plus nal <;> simp [hx, h]
  split_ifs <;> rfl

/-- With `m_convert_Hdr10Plus = false`, no loop iteration can set the
`convert_hdr10plus_meta` flag. -/
theorem btsNalStep_meta (cfg : BCConfig) (ext : ExtLibs) (st : BCState)
    (meta : Option (List Nat)) (u : Nat) (nal : List Nat)
    (h : cfg.convert_Hdr10Plus = false) :
    (btsNalStep cfg ext st meta u nal).2.1 = meta := by
  unfold btsNalStep
  dsimp only
  split_ifs <;>
    first
    | rfl
    | exact processSeiNal_meta cfg ext _ meta nal h

/-- A loop iteration never raises `hints.dovi.el_present_flag`. -/
theorem btsNalStep_el_monotone (cfg : BCConfig) (ext : ExtLibs) (st : BCState)
    (meta : Option (List Nat)) (u : Nat) (nal : List Nat)
    (h : (btsNalStep cfg ext st meta u nal).1.el_present_flag = true) :
    st.el_present_flag = true := by
  revert h
  unfold btsNalStep
  dsimp only
  split_ifs <;> intro h <;>
    first
    | simpa using h
    | · rw [processSeiNal_el] at h; simpa using h
    | · rcases (processDoViRpu_flags cfg ext _ nal).2.2.2.2.1 with he | he <;>
          rw [he] at h
        · simpa using h
        · exact absurd h (by simp)

/-- Processing an RPU NAL with a conversion mode set and a successful
library conversion clears `el_present_flag`; under `MODE_TO81` it also sets
`dv_profile = 8` and `dv_bl_signal_compatibility_id = 1`. -/
theorem processDoViRpu_success (cfg : BCConfig) (ext : ExtLibs) (st : BCState)
    (nal : List Nat) (hm : cfg.convert_dovi = DOVIMode.MODE_TO81)
    (hs : (ext.doviConvert cfg.convert_dovi nal).isSome = true) :
    (processDoViRpu cfg ext st nal).1.el_present_flag = false ∧
    (processDoViRpu cfg ext st nal).1.dv_profile = 8 ∧
    (processDoViRpu cfg ext st nal).1.dv_bl_signal_compatibility_id = 1 := by
  unfold processDoViRpu
  cases hx : ext.doviConvert cfg.convert_dovi nal with
  | none => rw [hx] at hs; simp at hs
  | some v => simp [hm, hx]

/-- `ProcessDoViRpu` preserves the converted-hints triple. -/
theorem processDoViRpu_triple (cfg : BCConfig) (ext : ExtLibs) (st : BCState)
    (nal : List Nat)
    (h : st.el_present_flag = false ∧ st.dv_profile = 8 ∧
         st.dv_bl_signal_compatibility_id = 1) :
    (processDoViRpu cfg ext st nal).1.el_present_flag = false ∧
    (processDoViRpu cfg ext st nal).1.dv_profile = 8 ∧
    (processDoViRpu cfg ext st nal).1.dv_bl_signal_compatibility_id = 1 := by
  obtain ⟨h1, h2, h3⟩ := h
  rcases processDoViRpu_flags cfg ext st nal with ⟨_, _, _, _, he, hp, hc⟩
  refine ⟨?_, ?_, ?_⟩
  · rcases he with h4 | h4 <;> simp [h4, h1]
  · rcases hp with h4 | h4 <;> simp [h4, h2]
  · rcases hc with h4 | h4 <;> simp [h4, h3]

/-- The converted-hints triple (`el_present_flag = 0`, `dv_profile = 8`,
`dv_bl_signal_compatibility_id = 1`) is preserved by every loop
iteration. -/
theorem btsNalStep_triple (cfg : BCConfig) (ext : ExtLibs) (st : BCState)
    (meta : Option (List Nat)) (u : Nat) (nal : List Nat)
    (h : st.el_present_flag = false ∧ st.dv_profile = 8 ∧
         st.dv_bl_signal_compatibility_id = 1) :
    (btsNalStep cfg ext st meta u nal).1.el_present_flag = false ∧
    (btsNalStep cfg ext st meta u nal).1.dv_profile = 8 ∧
    (btsNalStep cfg ext st meta u nal).1.dv_bl_signal_compatibility_id = 1 := by
  obtain ⟨h1, h2, h3⟩ := h
  unfold btsNalStep
  dsimp only
  split_ifs <;>
    first
    | (simp_all; done)
    | (simp_all [processSeiNal_el, processSeiNal_profile, processSeiNal_compat]; done)
    | exact processDoViRpu_triple cfg ext _ nal (by simp_all)

/-- A loop iteration that meets an RPU NAL (type 62) with `remove_dovi`
off, no pending HDR10+ conversion, `MODE_TO81` selected, and a successful
library conversion establishes the converted-hints triple. -/
theorem btsNalStep_el_success (cfg : BCConfig) (ext : ExtLibs) (st : BCState)
    (meta : Option (List Nat)) (nal : List Nat)
    (hm : cfg.convert_dovi = DOVIMode.MODE_TO81)
    (hr : cfg.removeDovi = false) (hmeta : meta = none)
    (hs : (ext.doviConvert cfg.convert_dovi nal).isSome = true) :
    (btsNalStep cfg ext st meta HEVC_NAL_UNSPEC62 nal).1.el_present_flag = false ∧
    (btsNalStep cfg ext st meta HEVC_NAL_UNSPEC62 nal).1.dv_profile = 8 ∧
    (btsNalStep cfg ext st meta HEVC_NAL_UNSPEC62 nal).1.dv_bl_signal_compatibility_id
      = 1 := by
  subst hmeta
  unfold btsNalStep
  dsimp only
  have hids : IsIDR cfg.codec HEVC_NAL_UNSPEC62 = false := by
    cases cfg.codec <;> decide
  rw [if_neg (by simp [hids])]
  rw [if_neg (by decide), if_pos (by decide)]
  rw [if_pos ⟨by simp [hr], rfl⟩]
  exact processDoViRpu_success cfg ext _ nal hm hs

/-- A loop iteration on a NAL whose type is none of SEI-prefix (39),
DV RPU (62), DV EL (63) always emits at least one copy call (either the
IDR-with-prologue call or the default verbatim copy). -/
theorem btsNalStep_plain_emits (cfg : BCConfig) (ext : ExtLibs) (st : BCState)
    (meta : Option (List Nat)) (u : Nat) (nal : List Nat)
    (h39 : u ≠ HEVC_NAL_SEI_PFX) (h62 : u ≠ HEVC_NAL_UNSPEC62)
    (h63 : u ≠ HEVC_NAL_UNSPEC63) :
    (btsNalStep cfg ext st meta u nal).2.2 ≠ [] := by
  unfold btsNalStep
  dsimp only
  split_ifs <;> simp_all

/-- The `BitstreamConvert` loop succeeds exactly when the packet's
length-prefixed structure is well formed. -/
theorem btsLoop_ok (cfg : BCConfig) (ext : ExtLibs) (fuel : Nat) :
    ∀ (st : BCState) (meta : Option (List Nat)) (calls : List CopyCall)
      (rem : List Nat),
    (btsLoop cfg ext fuel st meta calls rem).1 = packetParseOk cfg fuel rem := by
  induction fuel with
  | zero => intro st meta calls rem; simp [btsLoop, packetParseOk]
  | succ n ih =>
    intro st meta calls rem
    simp only [btsLoop, packetParseOk]
    by_cases h1 : rem.length < cfg.length_size
    · rw [if_pos h1, if_pos h1]
    · rw [if_neg h1, if_neg h1]
      by_cases h2 :
          nalSizeBad cfg (beBytes (List.take cfg.length_size rem))
            (List.drop cfg.length_size rem).length = true
      · rw [if_pos h2, if_pos h2]
      · rw [if_neg h2, if_neg h2]
        by_cases h3 :
            List.drop (beBytes (List.take cfg.length_size rem))
              (List.drop cfg.length_size rem) = []
        · rw [if_pos h3, if_pos h3]
        · rw [if_neg h3, if_neg h3]
          exact ih _ _ _ _

/-- Decode-start latch across one whole `BitstreamConvert` loop run: the
final `m_start_decode` is the initial value or-ed with the triggers of the
NALs actually visited (also on the failure path, since the flag is a class
member the `goto fail` does not roll back). -/
theorem btsLoop_start_decode (cfg : BCConfig) (ext : ExtLibs) (fuel : Nat) :
    ∀ (st : BCState) (meta : Option (List Nat)) (calls : List CopyCall)
      (rem : List Nat),
    ((btsLoop cfg ext fuel st meta calls rem).2.1).start_decode =
      (st.start_decode ||
        (nalScan cfg fuel rem).any fun q => startTrigger cfg q.1 q.2) := by
  induction fuel with
  | zero => intro st meta calls rem; simp [btsLoop, nalScan]
  | succ n ih =>
    intro st meta calls rem
    simp only [btsLoop, nalScan]
    by_cases h1 : rem.length < cfg.length_size
    · rw [if_pos h1, if_pos h1]; simp
    · rw [if_neg h1, if_neg h1]
      by_cases h2 :
          nalSizeBad cfg (beBytes (List.take cfg.length_size rem))
            (List.drop cfg.length_size rem).length = true
      · rw [if_pos h2, if_pos h2]; simp
      · rw [if_neg h2, if_neg h2]
        by_cases h3 :
            List.drop (beBytes (List.take cfg.length_size rem))
              (List.drop cfg.length_size rem) = []
        · rw [if_pos h3, if_pos h3]
          simp [btsNalStep_start_decode]
        · rw [if_neg h3, if_neg h3]
          rw [ih]
          simp [btsNalStep_start_decode, Bool.or_assoc]

/-- The loop only appends to the accumulated copy calls. -/
theorem btsLoop_calls_extend (cfg : BCConfig) (ext : ExtLibs) (fuel : Nat) :
    ∀ (st : BCState) (meta : Option (List Nat)) (calls : List CopyCall)
      (rem : List Nat),
    ∃ suf, (btsLoop cfg ext fuel st meta calls rem).2.2.2 = calls ++ suf := by
  induction fuel with
  | zero =>
    intro st meta calls rem
    exact ⟨[], by simp [btsLoop]⟩
  | succ n ih =>
    intro st meta calls rem
    simp only [btsLoop]
    by_cases h1 : rem.length < cfg.length_size
    · rw [if_pos h1]; exact ⟨[], by simp⟩
    · rw [if_neg h1]
      by_cases h2 :
          nalSizeBad cfg (beBytes (List.take cfg.length_size rem))
            (List.drop cfg.length_size rem).length = true
      · rw [if_pos h2]; exact ⟨[], by simp⟩
      · rw [if_neg h2]
        by_cases h3 :
            List.drop (beBytes (List.take cfg.length_size rem))
              (List.drop cfg.length_size rem) = []
        · rw [if_pos h3]
          exact ⟨_, rfl⟩
        · rw [if_neg h3]
          obtain ⟨suf, hs⟩ := ih (btsNalStep cfg ext st meta
              (unitTypeOf cfg.codec ((List.drop cfg.length_size rem).getD 0 0))
              (List.take (beBytes (List.take cfg.length_size rem))
                (List.drop cfg.length_size rem))).1
            (btsNalStep cfg ext st meta
              (unitTypeOf cfg.codec ((List.drop cfg.length_size rem).getD 0 0))
              (List.take (beBytes (List.take cfg.length_size rem))
                (List.drop cfg.length_size rem))).2.1
            (calls ++ (btsNalStep cfg ext st meta
              (unitTypeOf cfg.codec ((List.drop cfg.length_size rem).getD 0 0))
              (List.take (beBytes (List.take cfg.length_size rem))
                (List.drop cfg.length_size rem))).2.2)
            (List.drop (beBytes (List.take cfg.length_size rem))
              (List.drop cfg.length_size rem))
          rw [hs]
          exact ⟨_, by rw [List.append_assoc]⟩

/-- If some visited NAL has a plain type (not SEI-prefix, RPU, or EL), the
loop's accumulated copy calls are nonempty. -/
theorem btsLoop_plain_nonempty (cfg : BCConfig) (ext : ExtLibs) (fuel : Nat) :
    ∀ (st : BCState) (meta : Option (List Nat)) (calls : List CopyCall)
      (rem : List Nat),
    ((nalScan cfg fuel rem).any fun q =>
        !(q.1 == HEVC_NAL_SEI_PFX || q.1 == HEVC_NAL_UNSPEC62 ||
          q.1 == HEVC_NAL_UNSPEC63)) = true →
    (btsLoop cfg ext fuel st meta calls rem).2.2.2 ≠ [] := by
  induction fuel with
  | zero => intro st meta calls rem h; simp [nalScan] at h
  | succ n ih =>
    intro st meta calls rem h
    simp only [nalScan] at h
    simp only [btsLoop]
    by_cases h1 : rem.length < cfg.length_size
    · rw [if_pos h1] at h; simp at h
    · rw [if_neg h1] at h; rw [if_neg h1]
      by_cases h2 :
          nalSizeBad cfg (beBytes (List.take cfg.length_size rem))
            (List.drop cfg.length_size rem).length = true
      · rw [if_pos h2] at h; simp at h
      · rw [if_neg h2] at h; rw [if_neg h2]
        by_cases h3 :
            List.drop (beBytes (List.take cfg.length_size rem))
              (List.drop cfg.length_size rem) = []
        · rw [if_pos h3] at h; rw [if_pos h3]
          simp only [List.any_cons, List.any_nil, Bool.or_false] at h
          have hne := btsNalStep_plain_emits cfg ext st meta
            (unitTypeOf cfg.codec ((List.drop cfg.length_size rem).getD 0 0))
            (List.take (beBytes (List.take cfg.length_size rem))
              (List.drop cfg.length_size rem))
            (by intro hx; rw [hx] at h; simp at h)
            (by intro hx; rw [hx] at h; simp at h)
            (by intro hx; rw [hx] at h; simp at h)
          intro hx
          rcases List.append_eq_nil.mp hx with ⟨_, hsnil⟩
          exact hne hsnil
        · rw [if_neg h3] at h; rw [if_neg h3]
          simp only [List.any_cons] at h
          rcases (Bool.or_eq_true _ _).mp h with hhead | htail
          · obtain ⟨suf, hs⟩ := btsLoop_calls_extend cfg ext n _ _
              (calls ++ (btsNalStep cfg ext st meta
                (unitTypeOf cfg.codec ((List.drop cfg.length_size rem).getD 0 0))
                (List.take (beBytes (List.take cfg.length_size rem))
                  (List.drop cfg.length_size rem))).2.2)
              (List.drop (beBytes (List.take cfg.length_size rem))
                (List.drop cfg.length_size rem))
            rw [hs]
            have hne := btsNalStep_plain_emits cfg ext st meta
              (unitTypeOf cfg.codec ((List.drop cfg.length_size rem).getD 0 0))
              (List.take (beBytes (List.take cfg.length_size rem))
                (List.drop cfg.length_size rem))
              (by intro hx; rw [hx] at hhead; simp at hhead)
              (by intro hx; rw [hx] at hhead; simp at hhead)
              (by intro hx; rw [hx] at hhead; simp at hhead)
            intro hx
            rcases List.append_eq_nil.mp hx with ⟨hcnil, _⟩
            rcases List.append_eq_nil.mp hcnil with ⟨_, hsnil⟩
            exact hne hsnil
          · exact ih _ _ _ _ htail

/-- With `m_convert_Hdr10Plus = false`, the whole loop leaves the HDR10+
conversion metadata untouched. -/
theorem btsLoop_meta (cfg : BCConfig) (ext : ExtLibs) (fuel : Nat)
    (h : cfg.convert_Hdr10Plus = false) :
    ∀ (st : BCState) (meta : Option (List Nat)) (calls : List CopyCall)
      (rem : List Nat),
    (btsLoop cfg ext fuel st meta calls rem).2.2.1 = meta := by
  induction fuel with
  | zero => intro st meta calls rem; simp [btsLoop]
  | succ n ih =>
    intro st meta calls rem
    simp only [btsLoop]
    by_cases h1 : rem.length < cfg.length_size
    · rw [if_pos h1]
    · rw [if_neg h1]
      by_cases h2 :
          nalSizeBad cfg (beBytes (List.take cfg.length_size rem))
            (List.drop cfg.length_size rem).length = true
      · rw [if_pos h2]
      · rw [if_neg h2]
        by_cases h3 :
            List.drop (beBytes (List.take cfg.length_size rem))
              (List.drop cfg.length_size rem) = []
        · rw [if_pos h3]
          exact btsNalStep_meta cfg ext st meta _ _ h
        · rw [if_neg h3]
          rw [ih]
          exact btsNalStep_meta cfg ext st meta _ _ h

/-- The whole loop never raises `hints.dovi.el_present_flag`. -/
theorem btsLoop_el_monotone (cfg : BCConfig) (ext : ExtLibs) (fuel : Nat) :
    ∀ (st : BCState) (meta : Option (List Nat)) (calls : List CopyCall)
      (rem : List Nat),
    (btsLoop cfg ext fuel st meta calls rem).2.1.el_present_flag = true →
    st.el_present_flag = true := by
  induction fuel with
  | zero => intro st meta calls rem hx; simpa [btsLoop] using hx
  | succ n ih =>
    intro st meta calls rem
    simp only [btsLoop]
    by_cases h1 : rem.length < cfg.length_size
    · rw [if_pos h1]; exact fun hx => hx
    · rw [if_neg h1]
      by_cases h2 :
          nalSizeBad cfg (beBytes (List.take cfg.length_size rem))
            (List.drop cfg.length_size rem).length = true
      · rw [if_pos h2]; exact fun hx => hx
      · rw [if_neg h2]
        by_cases h3 :
            List.drop (beBytes (List.take cfg.length_size rem))
              (List.drop cfg.length_size rem) = []
        · rw [if_pos h3]
          exact fun hx => btsNalStep_el_monotone cfg ext st meta _ _ hx
        · rw [if_neg h3]
          intro hx
          exact btsNalStep_el_monotone cfg ext st meta _ _ (ih _ _ _ _ hx)

/-- The converted-hints triple is preserved by the whole loop. -/
theorem btsLoop_triple (cfg : BCConfig) (ext : ExtLibs) (fuel : Nat) :
    ∀ (st : BCState) (meta : Option (List Nat)) (calls : List CopyCall)
      (rem : List Nat),
    st.el_present_flag = false ∧ st.dv_profile = 8 ∧
      st.dv_bl_signal_compatibility_id = 1 →
    (btsLoop cfg ext fuel st meta calls rem).2.1.el_present_flag = false ∧
    (btsLoop cfg ext fuel st meta calls rem).2.1.dv_profile = 8 ∧
    (btsLoop cfg ext fuel st meta calls rem).2.1.dv_bl_signal_compatibility_id
      = 1 := by
  induction fuel with
  | zero => intro st meta calls rem hx; simpa [btsLoop] using hx
  | succ n ih =>
    intro st meta calls rem hx
    simp only [btsLoop]
    by_cases h1 : rem.length < cfg.length_size
    · rw [if_pos h1]; exact hx
    · rw [if_neg h1]
      by_cases h2 :
          nalSizeBad cfg (beBytes (List.take cfg.length_size rem))
            (List.drop cfg.length_size rem).length = true
      · rw [if_pos h2]; exact hx
      · rw [if_neg h2]
        by_cases h3 :
            List.drop (beBytes (List.take cfg.length_size rem))
              (List.drop cfg.length_size rem) = []
        · rw [if_pos h3]
          exact btsNalStep_triple cfg ext st meta _ _ hx
        · rw [if_neg h3]
          exact ih _ _ _ _ (btsNalStep_triple cfg ext st meta _ _ hx)

/-- If the loop visits an RPU NAL whose conversion succeeds (with
`MODE_TO81`, `remove_dovi` off and HDR10+ conversion disabled), the final
hints carry the converted triple. -/
theorem btsLoop_el_success (cfg : BCConfig) (ext : ExtLibs) (fuel : Nat)
    (hm : cfg.convert_dovi = DOVIMode.MODE_TO81) (hr : cfg.removeDovi = false)
    (hh : cfg.convert_Hdr10Plus = false) :
    ∀ (st : BCState) (calls : List CopyCall) (rem : List Nat),
    ((nalScan cfg fuel rem).any fun q =>
        q.1 == HEVC_NAL_UNSPEC62 &&
          (ext.doviConvert DOVIMode.MODE_TO81 q.2).isSome) = true →
    (btsLoop cfg ext fuel st none calls rem).2.1.el_present_flag = false ∧
    (btsLoop cfg ext fuel st none calls rem).2.1.dv_profile = 8 ∧
    (btsLoop cfg ext fuel st none calls rem).2.1.dv_bl_signal_compatibility_id
      = 1 := by
  induction fuel with
  | zero => intro st calls rem hx; simp [nalScan] at hx
  | succ n ih =>
    intro st calls rem hx
    simp only [nalScan] at hx
    simp only [btsLoop]
    by_cases h1 : rem.length < cfg.length_size
    · rw [if_pos h1] at hx; simp at hx
    · rw [if_neg h1] at hx; rw [if_neg h1]
      by_cases h2 :
          nalSizeBad cfg (beBytes (List.take cfg.length_size rem))
            (List.drop cfg.length_size rem).length = true
      · rw [if_pos h2] at hx; simp at hx
      · rw [if_neg h2] at hx; rw [if_neg h2]
        by_cases h3 :
            List.drop (beBytes (List.take cfg.length_size rem))
              (List.drop cfg.length_size rem) = []
        · rw [if_pos h3] at hx; rw [if_pos h3]
          simp only [List.any_cons, List.any_nil, Bool.or_false,
            Bool.and_eq_true, beq_iff_eq] at hx
          rw [← hm] at hx
          rw [hx.1]
          exact btsNalStep_el_success cfg ext st none _ hm hr rfl hx.2
        · rw [if_neg h3] at hx; rw [if_neg h3]
          simp only [List.any_cons] at hx
          rcases (Bool.or_eq_true _ _).mp hx with hhead | htail
          · simp only [Bool.and_eq_true, beq_iff_eq] at hhead
            have hstep := btsNalStep_el_success cfg ext st none
              (List.take (beBytes (List.take cfg.length_size rem))
                (List.drop cfg.length_size rem)) hm hr rfl
              (by rw [hm]; exact hhead.2)
            rw [hhead.1]
            have hmeta := btsNalStep_meta cfg ext st none
              HEVC_NAL_UNSPEC62
              (List.take (beBytes (List.take cfg.length_size rem))
                (List.drop cfg.length_size rem)) hh
            rw [hmeta]
            exact btsLoop_triple cfg ext n _ _ _ _ hstep
          · have hmeta := btsNalStep_meta cfg ext st none
              (unitTypeOf cfg.codec ((List.drop cfg.length_size rem).getD 0 0))
              (List.take (beBytes (List.take cfg.length_size rem))
                (List.drop cfg.length_size rem)) hh
            rw [hmeta]
            exact ih _ _ _ htail

/-- C2: the decode-start latch.  `m_start_decode`, while false, is set true
by a `BitstreamConvert` call exactly when a visited NAL is an SPS, an IDR,
or an SEI with a recovery point whose `recovery_frame_cnt` reads
non-negative; once true it stays true across `Convert` calls (the final
value is the old value or-ed with the triggers), and only the explicit
`ResetStartDecode` clears it, as observed through `CanStartDecode`. -/
theorem C2_start_decode_latch (cfg : BCConfig) (ext : ExtLibs) (st : BCState)
    (p : List Nat) :
    (BitstreamConvert cfg ext st p).2.2.start_decode =
      (st.start_decode ||
        (nalScan cfg (p.length + 1) p).any fun q => startTrigger cfg q.1 q.2) ∧
    (ResetStartDecode st).start_decode = false ∧
    CanStartDecode st = st.start_decode := by
  refine ⟨?_, rfl, rfl⟩
  have hloop := btsLoop_start_decode cfg ext (p.length + 1) st none [] p
  unfold BitstreamConvert
  rcases hr : btsLoop cfg ext (p.length + 1) st none [] p with ⟨ok, st', metaF, calls⟩
  rw [hr] at hloop
  simp only [hr]
  cases ok
  · simpa using hloop
  · cases metaF with
    | none => simpa using hloop
    | some m =>
      have ha := (AddDoViRpuNalu_flags ext st' m).2.2.1
      simpa [ha] using hloop

/-- C7: abort on malformed NAL lengths.  When the packet's declared NAL
lengths are non-positive or overrun the buffer, the single-track `Convert`
fails: partial output is discarded, the reported buffer is NULL and the
size 0 (also through the accessors); the configuration is untouched (it is
a separate record in the model), and a subsequent `Convert` on any
well-formed packet that contains a plainly-copied NAL succeeds from any
state. -/
theorem C7_truncated_packet (cfg : BCConfig) (ext : ExtLibs) (st : ConvState)
    (p : List Nat) :
    (packetParseOk cfg (p.length + 1) p = false →
      (Convert1 cfg ext st (some p)).1 = false ∧
      (Convert1 cfg ext st (some p)).2.convertBuffer = none ∧
      (Convert1 cfg ext st (some p)).2.convertSize = 0 ∧
      GetConvertBuffer cfg (Convert1 cfg ext st (some p)).2 = none ∧
      GetConvertSize cfg (Convert1 cfg ext st (some p)).2 = 0) ∧
    (packetParseOk cfg (p.length + 1) p = true →
      ((nalScan cfg (p.length + 1) p).any fun q =>
          !(q.1 == HEVC_NAL_SEI_PFX || q.1 == HEVC_NAL_UNSPEC62 ||
            q.1 == HEVC_NAL_UNSPEC63)) = true →
      (Convert1 cfg ext st (some p)).1 = true ∧
      (Convert1 cfg ext st (some p)).2.convertBuffer ≠ none) := by
  have hok := btsLoop_ok cfg ext (p.length + 1) st.bc none [] p
  constructor
  · intro hbad
    have hfail : (btsLoop cfg ext (p.length + 1) st.bc none [] p).1 = false := by
      rw [hok]; exact hbad
    unfold Convert1 BitstreamConvert
    rcases hr : btsLoop cfg ext (p.length + 1) st.bc none [] p
      with ⟨ok, st', metaF, calls⟩
    rw [hr] at hfail
    subst hfail
    simp only [hr]
    simp [GetConvertBuffer, GetConvertSize]
  · intro hgood hplain
    have hsucc : (btsLoop cfg ext (p.length + 1) st.bc none [] p).1 = true := by
      rw [hok]; exact hgood
    have hne := btsLoop_plain_nonempty cfg ext (p.length + 1) st.bc none [] p hplain
    unfold Convert1 BitstreamConvert
    rcases hr : btsLoop cfg ext (p.length + 1) st.bc none [] p
      with ⟨ok, st', metaF, calls⟩
    rw [hr] at hsucc hne
    subst hsucc
    simp only [hr]
    cases metaF with
    | none =>
      have hx : calls ≠ [] := by simpa using hne
      simp [hx]
    | some m =>
      have hx : (calls ++ (AddDoViRpuNalu ext st' m).2) ≠ [] := by
        intro hx
        exact hne (List.append_eq_nil.mp hx).1
      simp [hx]

/-- C7 witness: a packet whose single NAL declares length 5 with only one
byte remaining fails, and a well-formed one-NAL packet (an AUD) then
succeeds from the same configuration. -/
theorem C7_truncated_packet_witness :
    (Convert1 cfgAvcBase extTrivial convOpenState (some [5, 1])).1 = false ∧
    (Convert1 cfgAvcBase extTrivial convOpenState (some [1, 9])).1 = true := by
  constructor
  · exact ((C7_truncated_packet cfgAvcBase extTrivial convOpenState [5, 1]).1
      (by decide)).1
  · exact ((C7_truncated_packet cfgAvcBase extTrivial convOpenState [1, 9]).2
      (by decide) (by decide)).1

/-- With `remove_dovi` set, a loop iteration does not touch
`el_present_flag` at all (RPU NALs are dropped without clearing hints). -/
theorem btsNalStep_el_removeDovi (cfg : BCConfig) (ext : ExtLibs) (st : BCState)
    (meta : Option (List Nat)) (u : Nat) (nal : List Nat)
    (h : cfg.removeDovi = true) :
    (btsNalStep cfg ext st meta u nal).1.el_present_flag = st.el_present_flag := by
  unfold btsNalStep
  dsimp only
  split_ifs <;> simp_all [processSeiNal_el]

/-- With `remove_dovi` set, the whole loop leaves `el_present_flag`
unchanged. -/
theorem btsLoop_el_removeDovi (cfg : BCConfig) (ext : ExtLibs) (fuel : Nat)
    (h : cfg.removeDovi = true) :
    ∀ (st : BCState) (meta : Option (List Nat)) (calls : List CopyCall)
      (rem : List Nat),
    (btsLoop cfg ext fuel st meta calls rem).2.1.el_present_flag =
      st.el_present_flag := by
  induction fuel with
  | zero => intro st meta calls rem; simp [btsLoop]
  | succ n ih =>
    intro st meta calls rem
    simp only [btsLoop]
    by_cases h1 : rem.length < cfg.length_size
    · rw [if_pos h1]
    · rw [if_neg h1]
      by_cases h2 :
          nalSizeBad cfg (beBytes (List.take cfg.length_size rem))
            (List.drop cfg.length_size rem).length = true
      · rw [if_pos h2]
      · rw [if_neg h2]
        by_cases h3 :
            List.drop (beBytes (List.take cfg.length_size rem))
              (List.drop cfg.length_size rem) = []
        · rw [if_pos h3]
          exact btsNalStep_el_removeDovi cfg ext st meta _ _ h
        · rw [if_neg h3]
          rw [ih]
          exact btsNalStep_el_removeDovi cfg ext st meta _ _ h

/-- C3 counterexample: a single-track `Convert`-style `BitstreamConvert`
call with `remove_dovi = true` on a packet holding one DoVi RPU NAL leaves
`hints.dovi.el_present_flag` at `true` (the RPU is dropped without any
hints update), contradicting the claim that the flag is false after every
such call. -/
theorem C3_counterexample :
    cfgHevcRemoveDovi.removeDovi = true ∧
    (BitstreamConvert cfgHevcRemoveDovi extTrivial bcOpenState
        [2, 124, 0]).2.2.el_present_flag = true := by
  constructor
  · rfl
  · decide

/-- C3 amended: single-track `BitstreamConvert` never raises
`el_present_flag`; with `remove_dovi = true` (and HDR10+ conversion off)
the flag is left exactly unchanged; and when `dovi_convert_mode = TO_81`
(with `remove_dovi` off and HDR10+ conversion off) and the DV library
conversion succeeds on a visited RPU NAL, the call ends with
`el_present_flag = false`, `dv_profile = 8`, and
`dv_bl_signal_compatibility_id = 1`. -/
theorem C3_el_present_flag (cfg : BCConfig) (ext : ExtLibs) (st : BCState)
    (p : List Nat) :
    ((BitstreamConvert cfg ext st p).2.2.el_present_flag = true →
      st.el_present_flag = true) ∧
    (cfg.removeDovi = true → cfg.convert_Hdr10Plus = false →
      (BitstreamConvert cfg ext st p).2.2.el_present_flag =
        st.el_present_flag) ∧
    (cfg.convert_dovi = DOVIMode.MODE_TO81 → cfg.removeDovi = false →
      cfg.convert_Hdr10Plus = false →
      ((nalScan cfg (p.length + 1) p).any fun q =>
          q.1 == HEVC_NAL_UNSPEC62 &&
            (ext.doviConvert DOVIMode.MODE_TO81 q.2).isSome) = true →
      (BitstreamConvert cfg ext st p).2.2.el_present_flag = false ∧
      (BitstreamConvert cfg ext st p).2.2.dv_profile = 8 ∧
      (BitstreamConvert cfg ext st p).2.2.dv_bl_signal_compatibility_id = 1) := by
  refine ⟨?_, ?_, ?_⟩
  · unfold BitstreamConvert
    rcases hr : btsLoop cfg ext (p.length + 1) st none [] p
      with ⟨ok, st', metaF, calls⟩
    have hmono := btsLoop_el_monotone cfg ext (p.length + 1) st none [] p
    rw [hr] at hmono
    simp only [hr]
    cases ok
    · exact fun hx => hmono hx
    · cases metaF with
      | none => exact fun hx => hmono hx
      | some m =>
        intro hx
        rcases (AddDoViRpuNalu_flags ext st' m).2.2.2.2 with he | he
        · exact hmono (by simpa [he] using hx)
        · rw [he] at hx; simp at hx
  · intro hrd hcv
    unfold BitstreamConvert
    rcases hr : btsLoop cfg ext (p.length + 1) st none [] p
      with ⟨ok, st', metaF, calls⟩
    have hel := btsLoop_el_removeDovi cfg ext (p.length + 1) hrd st none [] p
    have hmeta := btsLoop_meta cfg ext (p.length + 1) hcv st none [] p
    rw [hr] at hel hmeta
    simp only [hr]
    cases ok
    · exact hel
    · have hmf : metaF = none := hmeta
      subst hmf
      simpa using hel
  · intro hm hr0 hh hscan
    unfold BitstreamConvert
    rcases hr : btsLoop cfg ext (p.length + 1) st none [] p
      with ⟨ok, st', metaF, calls⟩
    have htr := btsLoop_el_success cfg ext (p.length + 1) hm hr0 hh st [] p hscan
    have hmeta := btsLoop_meta cfg ext (p.length + 1) hh st none [] p
    rw [hr] at htr hmeta
    simp only [hr]
    cases ok
    · exact htr
    · have hmf : metaF = none := hmeta
      subst hmf
      simpa using htr

/-- C3 witness: with `dovi_convert_mode = TO_81` and a successful library
conversion, a Convert over one RPU NAL ends with the converted hints. -/
theorem C3_el_present_flag_witness :
    (BitstreamConvert { cfgHevcBase with convert_dovi := DOVIMode.MODE_TO81 }
        extConvertOk bcOpenState [2, 124, 0]).2.2.el_present_flag = false := by
  exact ((C3_el_present_flag
      { cfgHevcBase with convert_dovi := DOVIMode.MODE_TO81 }
      extConvertOk bcOpenState [2, 124, 0]).2.2 rfl rfl rfl (by decide)).1

/-- C1 counterexample: an SPS NAL delivered in one access unit and an IDR
alone in the next.  The IDR's access unit contains no SPS/PPS, yet no
prologue is prepended (the 103-byte prologue of `cfgAvcBase` is absent
from the output, which is just a start code plus the IDR byte), because
`idr_sps_pps_seen` persists across `Convert` calls; so "prologue iff no
SPS/PPS in the access unit" is false as stated. -/
theorem C1_counterexample :
    outBytes
      (BitstreamConvert cfgAvcBase extTrivial
        (BitstreamConvert cfgAvcBase extTrivial bcOpenState [1, 103]).2.2
        [1, 101]).2.1 = [0, 0, 0, 1, 101] ∧
    cfgAvcBase.sps_pps_data ≠ [] := by
  constructor
  · decide
  · decide

/-- C1 amended: per loop iteration of `BitstreamConvert`, the SPS/PPS
prologue is passed to `BitstreamAllocAndCopy` (prepended immediately
before the NAL payload) if and only if the NAL is an IDR met while
`first_idr` is armed and `idr_sps_pps_seen` — which accumulates SPS/PPS
sightings across `Convert` calls since `Open` or the last re-arm, not per
access unit — is clear; in that case the call carries exactly the prologue
and the IDR and disarms `first_idr`; `idr_sps_pps_seen` is raised by an
SPS/PPS seen while armed and cleared by the re-arm; and a slice met while
`first_idr` is disarmed re-arms `first_idr` and clears
`idr_sps_pps_seen`. -/
theorem C1_idr_prologue (cfg : BCConfig) (ext : ExtLibs) (st : BCState)
    (meta : Option (List Nat)) (u : Nat) (nal : List Nat) :
    (((btsNalStep cfg ext st meta u nal).2.2.any fun c => c.sps_pps.isSome) =
      decide (prologueCond cfg st u)) ∧
    (prologueCond cfg st u →
      (btsNalStep cfg ext st meta u nal).2.2 =
        [⟨some cfg.sps_pps_data, nal, u⟩] ∧
      (btsNalStep cfg ext st meta u nal).1.first_idr = false) ∧
    ((btsNalStep cfg ext st meta u nal).1.first_idr =
      (if prologueCond cfg st u then false
       else if st.first_idr = false ∧ IsSlice cfg.codec u = true then true
       else st.first_idr)) ∧
    ((btsNalStep cfg ext st meta u nal).1.idr_sps_pps_seen =
      (if prologueCond cfg st u then
        (st.idr_sps_pps_seen ||
          st.first_idr && (u == nal_sps cfg.codec || u == nal_pps cfg.codec))
       else if st.first_idr = false ∧ IsSlice cfg.codec u = true then false
       else
        (st.idr_sps_pps_seen ||
          st.first_idr && (u == nal_sps cfg.codec || u == nal_pps cfg.codec)))) :=
  ⟨btsNalStep_prologue_iff cfg ext st meta u nal,
   fun h => btsNalStep_prologue_shape cfg ext st meta u nal h,
   btsNalStep_first_idr cfg ext st meta u nal,
   btsNalStep_seen cfg ext st meta u nal⟩

/-- C1 witness: the amended characterization applied to a fresh post-Open
state meeting an IDR NAL: the prologue condition holds, so the emitted
call carries the prologue and `first_idr` clears. -/
theorem C1_idr_prologue_witness :
    (btsNalStep cfgAvcBase extTrivial bcOpenState none AVC_NAL_IDR_SLICE
        [101]).2.2 =
      [⟨some cfgAvcBase.sps_pps_data, [101], AVC_NAL_IDR_SLICE⟩] := by
  exact ((C1_idr_prologue cfgAvcBase extTrivial bcOpenState none
      AVC_NAL_IDR_SLICE [101]).2.1 (by decide)).1

/-- Length of a cache-bit view. -/
theorem cacheBits_length (c h : Nat) : (cacheBits c h).length = h := by
  induction h with
  | zero => rfl
  | succ n ih => simp [cacheBits, ih]

/-- The cache-bit view only looks at the low `h` bits. -/
theorem cacheBits_mod (c m h : Nat) (hm : h ≤ m) :
    cacheBits (c % 2 ^ m) h = cacheBits c h := by
  induction h with
  | zero => rfl
  | succ n ih =>
    simp only [cacheBits]
    rw [ih (Nat.le_of_succ_le hm), Nat.testBit_mod_two_pow,
      decide_eq_true (Nat.lt_of_lt_of_le (Nat.lt_succ_self n) hm),
      Bool.true_and]

/-- Splitting a value at bit `k` splits its bit view. -/
theorem cacheBits_mul_add (a b k : Nat) (hb : b < 2 ^ k) :
    ∀ h, cacheBits (a * 2 ^ k + b) (h + k) = cacheBits a h ++ cacheBits b k := by
  intro h
  induction h with
  | zero =>
    rw [Nat.zero_add]
    have hmod : (a * 2 ^ k + b) % 2 ^ k = b := by
      rw [Nat.mul_comm a (2 ^ k), Nat.mul_add_mod]
      exact Nat.mod_eq_of_lt hb
    calc cacheBits (a * 2 ^ k + b) k
        = cacheBits ((a * 2 ^ k + b) % 2 ^ k) k := (cacheBits_mod _ k k le_rfl).symm
      _ = cacheBits b k := by rw [hmod]
      _ = cacheBits a 0 ++ cacheBits b k := rfl
  | succ n ih =>
    have hhead : (a * 2 ^ k + b).testBit (n + k) = a.testBit n := by
      rw [Nat.testBit_to_div_mod, Nat.testBit_to_div_mod]
      have hdiv : (a * 2 ^ k + b) / 2 ^ (n + k) = a / 2 ^ n := by
        rw [Nat.pow_add, Nat.mul_comm (2 ^ n) (2 ^ k), ← Nat.div_div_eq_div_mul]
        have hq : (a * 2 ^ k + b) / 2 ^ k = a := by
          rw [Nat.mul_comm a (2 ^ k),
            Nat.mul_add_div (Nat.pos_pow_of_pos k (by norm_num)),
            Nat.div_eq_of_lt hb, Nat.add_zero]
        rw [hq]
      rw [hdiv]
    have hs : n + 1 + k = (n + k) + 1 := by omega
    rw [hs]
    simp only [cacheBits]
    rw [ih, hhead]
    rfl

/-- Folding the bit-value accumulator from an arbitrary start. -/
theorem bitsToNat_foldl (l : List Bool) :
    ∀ a, l.foldl (fun x b => 2 * x + (if b then 1 else 0)) a =
      a * 2 ^ l.length + bitsToNat l := by
  induction l with
  | nil => intro a; simp [bitsToNat]
  | cons b t ih =>
    intro a
    simp only [List.foldl_cons, List.length_cons, bitsToNat]
    rw [ih (2 * a + (if b then 1 else 0)), ih (2 * 0 + (if b then 1 else 0))]
    cases b <;> (simp; ring)

/-- Value of a cache-bit view. -/
theorem bitsToNat_cacheBits (c : Nat) :
    ∀ h, bitsToNat (cacheBits c h) = c % 2 ^ h := by
  intro h
  induction h with
  | zero => simp [bitsToNat, cacheBits, Nat.mod_one]
  | succ n ih =>
    simp only [cacheBits, bitsToNat, List.foldl_cons]
    have := bitsToNat_foldl (cacheBits c n) (2 * 0 + (if c.testBit n then 1 else 0))
    unfold bitsToNat at this ih
    rw [this, cacheBits_length, ih]
    have hmod : c % 2 ^ (n + 1) = c % 2 ^ n + 2 ^ n * (c / 2 ^ n % 2) := by
      rw [Nat.pow_succ, Nat.mod_mul]
    rw [hmod, Nat.testBit_to_div_mod]
    rcases Nat.mod_two_eq_zero_or_one (c / 2 ^ n) with hx | hx <;> simp [hx]
    ring

/-- Splitting a cache-bit view at position `k` from the bottom. -/
theorem cacheBits_split (c k h : Nat) (hk : k ≤ h) :
    cacheBits c h = cacheBits (c >>> k) (h - k) ++ cacheBits c k := by
  have hc : c = (c >>> k) * 2 ^ k + c % 2 ^ k := by
    rw [Nat.shiftRight_eq_div_pow]
    exact (Nat.div_add_mod' c (2 ^ k)).symm
  calc cacheBits c h
      = cacheBits ((c >>> k) * 2 ^ k + c % 2 ^ k) ((h - k) + k) := by
        rw [← hc, Nat.sub_add_cancel hk]
    _ = cacheBits (c >>> k) (h - k) ++ cacheBits (c % 2 ^ k) k :=
        cacheBits_mul_add _ _ k (Nat.mod_lt _ (Nat.pos_pow_of_pos k (by norm_num))) _
    _ = cacheBits (c >>> k) (h - k) ++ cacheBits c k := by
        rw [cacheBits_mod c k k le_rfl]

/-- Taking the top `n` bits of a cache-bit view. -/
theorem cacheBits_take (c h n : Nat) (hn : n ≤ h) :
    (cacheBits c h).take n = cacheBits (c >>> (h - n)) n := by
  rw [cacheBits_split c (h - n) h (Nat.sub_le h n)]
  have hn' : h - (h - n) = n := by omega
  have hlen : (cacheBits (c >>> (h - n)) (h - (h - n))).length = n := by
    rw [cacheBits_length]; omega
  rw [hn'] at hlen ⊢
  exact List.take_left' hlen

/-- Dropping the top `n` bits of a cache-bit view. -/
theorem cacheBits_drop (c h n : Nat) (hn : n ≤ h) :
    (cacheBits c h).drop n = cacheBits c (h - n) := by
  rw [cacheBits_split c (h - n) h (Nat.sub_le h n)]
  have hn' : h - (h - n) = n := by omega
  have hlen : (cacheBits (c >>> (h - n)) (h - (h - n))).length = n := by
    rw [cacheBits_length]; omega
  rw [hn'] at hlen ⊢
  exact List.drop_left' hlen

/-- Bit strings denote values below `2 ^ length`. -/
theorem bitsToNat_lt (l : List Bool) : bitsToNat l < 2 ^ l.length := by
  induction l with
  | nil => simp [bitsToNat]
  | cons b t ih =>
    simp only [bitsToNat, List.foldl_cons, List.length_cons]
    have := bitsToNat_foldl t (2 * 0 + (if b then 1 else 0))
    unfold bitsToNat at this ih
    rw [this]
    cases b <;> simp <;> omega

/-- When the pull fails, no future bits remain (the data was empty or a
lone discardable 0x03). -/
theorem pullByte_none (d : List Nat) (c : Nat)
    (h : (pullByte d c).1 = none) :
    futureBits d (c % 65536) = [] := by
  match d with
  | [] => rfl
  | [b] =>
    simp only [pullByte] at h
    by_cases hb : b = 3 ∧ c % 65536 = 0
    · simp only [futureBits]
      rw [if_pos hb]
    · rw [if_neg hb] at h
      simp at h
  | b :: b2 :: rest =>
    simp only [pullByte] at h
    by_cases hb : b = 3 ∧ c % 65536 = 0
    · rw [if_pos hb] at h
      simp at h
    · rw [if_neg hb] at h
      simp at h

/-- When the pull succeeds, the future bits start with the pulled byte and
continue from the remaining data under the updated last-two-bytes
residue. -/
theorem pullByte_some (d : List Nat) (c b : Nat) (d' : List Nat)
    (h : pullByte d c = (some b, d')) :
    b ∈ d ∧ (∀ x ∈ d', x ∈ d) ∧ d'.length < d.length ∧
    futureBits d (c % 65536) =
      byteBits b ++ futureBits d' ((c * 256 + b) % 65536) := by
  have harg : (c % 65536 * 256 + b) % 65536 = (c * 256 + b) % 65536 := by
    rw [Nat.add_mod, Nat.mod_mul_mod, ← Nat.add_mod]
  match d with
  | [] => simp [pullByte] at h
  | [b0] =>
    simp only [pullByte] at h
    by_cases hb : b0 = 3 ∧ c % 65536 = 0
    · rw [if_pos hb] at h
      simp at h
    · rw [if_neg hb] at h
      simp only [Prod.mk.injEq, Option.some.injEq] at h
      obtain ⟨hb0, hd⟩ := h
      subst hb0; subst hd
      refine ⟨by simp, by simp, by simp, ?_⟩
      simp only [futureBits]
      rw [if_neg hb]
      simp [futureBits]
  | b0 :: b1 :: rest =>
    simp only [pullByte] at h
    by_cases hb : b0 = 3 ∧ c % 65536 = 0
    · rw [if_pos hb] at h
      simp only [Prod.mk.injEq, Option.some.injEq] at h
      obtain ⟨hb1, hd⟩ := h
      subst hb1; subst hd
      refine ⟨by simp, fun x hx => by simp [hx], by simp; omega, ?_⟩
      simp only [futureBits]
      rw [if_pos hb, harg]
    · rw [if_neg hb] at h
      simp only [Prod.mk.injEq, Option.some.injEq] at h
      obtain ⟨hb0, hd⟩ := h
      subst hb0; subst hd
      refine ⟨by simp, fun x hx => by simp [hx], by simp, ?_⟩
      simp only [futureBits]
      rw [if_neg hb, harg]

/-- Fill-loop correctness: with enough bits in the stream and `n ≤ 32`, the
fill reaches `head ≥ n`, reports the full `n`, and neither creates nor
destroys bits. -/
theorem fillAux_spec (n : Nat) (h32 : n ≤ 32) :
    ∀ (fuel : Nat) (bs : nal_bitstream),
    bs.data.length < fuel →
    (∀ b ∈ bs.data, b < 256) →
    n ≤ (allBits bs).length →
    (fillAux n fuel bs).2 = n ∧
    n ≤ (fillAux n fuel bs).1.head ∧
    allBits (fillAux n fuel bs).1 = allBits bs ∧
    (∀ b ∈ (fillAux n fuel bs).1.data, b < 256) := by
  intro fuel
  induction fuel with
  | zero => intro bs hf hb hn; omega
  | succ m ih =>
    intro bs hf hb hn
    simp only [fillAux]
    by_cases hh : bs.head < n
    · rw [if_pos hh]
      rcases hp : pullByte bs.data bs.cache with ⟨ob, d'⟩
      cases ob with
      | none =>
        exfalso
        have hfut := pullByte_none bs.data bs.cache (by rw [hp])
        have hlen : (allBits bs).length = bs.head := by
          unfold allBits pendingBits
          rw [hfut]
          simp [cacheBits_length]
        omega
      | some b =>
        dsimp only
        obtain ⟨hmem, hsub, hlen, hfut⟩ := pullByte_some bs.data bs.cache b d' hp
        have hb256 : b < 256 := hb b hmem
        have hcachemod :
            ((bs.cache * 256 + b) % 2 ^ 64) % 65536 = (bs.cache * 256 + b) % 65536 :=
          Nat.mod_mod_of_dvd _ ⟨2 ^ 48, by norm_num⟩
        have hpend :
            cacheBits ((bs.cache * 256 + b) % 2 ^ 64) (bs.head + 8) =
              cacheBits bs.cache bs.head ++ cacheBits b 8 := by
          rw [cacheBits_mod _ 64 _ (by omega)]
          exact cacheBits_mul_add bs.cache b 8 (by omega) bs.head
        have hall :
            allBits
              { data := d', head := bs.head + 8,
                cache := (bs.cache * 256 + b) % 2 ^ 64 } = allBits bs := by
          unfold allBits pendingBits
          simp only []
          rw [hpend, hcachemod, hfut]
          unfold byteBits
          rw [List.append_assoc]
        have := ih
          { data := d', head := bs.head + 8,
            cache := (bs.cache * 256 + b) % 2 ^ 64 }
          (by simp only []; omega)
          (fun x hx => hb x (hsub x hx))
          (by rw [hall]; exact hn)
        exact ⟨this.1, this.2.1, this.2.2.1.trans hall, this.2.2.2⟩
    · rw [if_neg hh]
      exact ⟨rfl, Nat.le_of_not_lt hh, rfl, hb⟩

/-- Reader correctness: `nal_bs_read` returns the value of the next `n`
stream bits (most-significant first) and advances the stream by exactly
those bits. -/
theorem nal_bs_read_spec (bs : nal_bitstream) (n : Nat)
    (h1 : 1 ≤ n) (h32 : n ≤ 32)
    (hb : ∀ b ∈ bs.data, b < 256)
    (hn : n ≤ (allBits bs).length) :
    (nal_bs_read bs n).1 = bitsToNat ((allBits bs).take n) ∧
    allBits (nal_bs_read bs n).2 = (allBits bs).drop n ∧
    (∀ b ∈ (nal_bs_read bs n).2.data, b < 256) := by
  obtain ⟨hm, hhead, hall, hbytes⟩ :=
    fillAux_spec n h32 (bs.data.length + 1) bs (Nat.lt_succ_self _) hb hn
  unfold nal_bs_read
  rw [if_neg (by omega)]
  simp only [hm]
  set bs1 := (fillAux n (bs.data.length + 1) bs).1 with hbs1
  have hpendlen : (pendingBits bs1).length = bs1.head := by
    unfold pendingBits; exact cacheBits_length _ _
  have hval :
      (if 0 < bs1.head - n then (bs1.cache >>> (bs1.head - n)) % 2 ^ 32
       else bs1.cache % 2 ^ 32) %
        2 ^ n = (bs1.cache >>> (bs1.head - n)) % 2 ^ n := by
    by_cases hs : 0 < bs1.head - n
    · rw [if_pos hs, Nat.mod_mod_of_dvd _ (pow_dvd_pow 2 h32)]
    · rw [if_neg hs]
      have hz : bs1.head - n = 0 := by omega
      rw [hz, Nat.shiftRight_zero, Nat.mod_mod_of_dvd _ (pow_dvd_pow 2 h32)]
  have hres :
      (if n < 32 then
        (if 0 < bs1.head - n then (bs1.cache >>> (bs1.head - n)) % 2 ^ 32
         else bs1.cache % 2 ^ 32) % 2 ^ n
       else
        (if 0 < bs1.head - n then (bs1.cache >>> (bs1.head - n)) % 2 ^ 32
         else bs1.cache % 2 ^ 32)) = (bs1.cache >>> (bs1.head - n)) % 2 ^ n := by
    by_cases h31 : n < 32
    · rw [if_pos h31, hval]
    · have h32' : n = 32 := by omega
      subst h32'
      rw [if_neg h31, ← hval]
      split_ifs <;> simp
  refine ⟨?_, ?_, hbytes⟩
  · rw [hres, ← hall]
    unfold allBits
    rw [List.take_append_of_le_length (by omega)]
    unfold pendingBits
    rw [cacheBits_take _ _ _ (by omega), bitsToNat_cacheBits]
  · rw [← hall]
    unfold allBits pendingBits
    simp only []
    rw [List.drop_append_of_le_length (by rw [cacheBits_length]; omega)]
    rw [cacheBits_drop _ _ _ (by omega)]

/-- A stream with bits left is never at end-of-stream. -/
theorem nal_bs_eos_false (bs : nal_bitstream) (h : allBits bs ≠ []) :
    nal_bs_eos bs = false := by
  unfold nal_bs_eos
  by_cases hd : bs.data = []
  · by_cases hh : bs.head = 0
    · exfalso
      apply h
      unfold allBits pendingBits
      rw [hd, hh]
      rfl
    · simp [hd, hh]
  · simp [hd]

/-- Leading-zero loop correctness: on a stream whose bits are `k` zeros,
then a one, then `rest`, the loop consumes exactly the zeros and the
terminating one and reports `i + k`. -/
theorem ueLoopAux_spec :
    ∀ (k : Nat) (bs : nal_bitstream) (i fuel : Nat) (rest : List Bool),
    (∀ b ∈ bs.data, b < 256) →
    allBits bs = List.replicate k false ++ true :: rest →
    i + k ≤ 31 → 31 - i < fuel →
    (ueLoopAux bs i fuel).1 = i + k ∧
    allBits (ueLoopAux bs i fuel).2 = rest ∧
    (∀ b ∈ (ueLoopAux bs i fuel).2.data, b < 256) := by
  intro k
  induction k with
  | zero =>
    intro bs i fuel rest hb hsh hik hfuel
    match fuel with
    | 0 => omega
    | m + 1 =>
      simp only [ueLoopAux]
      obtain ⟨hv, hdrop, hbytes⟩ := nal_bs_read_spec bs 1 le_rfl (by omega) hb
        (by rw [hsh]; simp)
      rw [hsh] at hv hdrop
      simp only [List.replicate, List.nil_append] at hv hdrop
      have hv1 : (nal_bs_read bs 1).1 = 1 := by
        rw [hv]
        simp [bitsToNat]
      rw [if_neg (by rw [hv1]; simp)]
      refine ⟨rfl, ?_, hbytes⟩
      rw [hdrop]
      simp
  | succ n ih =>
    intro bs i fuel rest hb hsh hik hfuel
    match fuel with
    | 0 => omega
    | m + 1 =>
      simp only [ueLoopAux]
      obtain ⟨hv, hdrop, hbytes⟩ := nal_bs_read_spec bs 1 le_rfl (by omega) hb
        (by rw [hsh]; simp; omega)
      rw [hsh] at hv hdrop
      have hrep : List.replicate (n + 1) false ++ true :: rest =
          false :: (List.replicate n false ++ true :: rest) := by
        simp [List.replicate]
      rw [hrep] at hv hdrop
      have hv0 : (nal_bs_read bs 1).1 = 0 := by
        rw [hv]
        simp [bitsToNat]
      have hne : nal_bs_eos (nal_bs_read bs 1).2 = false := by
        apply nal_bs_eos_false
        rw [hdrop]
        simp
      rw [if_pos ⟨hv0, hne, by omega⟩]
      have := ih (nal_bs_read bs 1).2 (i + 1) m rest hbytes
        (by rw [hdrop]; simp) (by omega) (by omega)
      refine ⟨by rw [this.1]; omega, this.2.1, this.2.2⟩

/-- **C5.** On a stream whose remaining bits are `k` zeros (`k ≤ 31`), a
one, and at least `k` further bits, the unsigned Exp-Golomb read
`nal_bs_read_ue` returns `(1 <<< k) - 1 + v` where `v` is the value of the
next `k` bits, consuming exactly `2k+1` bits; and the signed Exp-Golomb
read `nal_bs_read_se` returns `(i+1)/2` (C truncating division on the
`int` view `i` of that unsigned value) with sign `+1` when `i` is odd and
`-1` when `i` is even. -/
theorem C5_exp_golomb (bs : nal_bitstream) (k : Nat) (rest : List Bool)
    (hb : ∀ b ∈ bs.data, b < 256)
    (hsh : allBits bs = List.replicate k false ++ true :: rest)
    (hk : k ≤ 31) (hkr : k ≤ rest.length) :
    (nal_bs_read_ue bs).1 = 2 ^ k - 1 + bitsToNat (rest.take k) ∧
    allBits (nal_bs_read_ue bs).2 = rest.drop k ∧
    (nal_bs_read_se bs).1 =
      Int.tdiv (int32OfUInt32 (2 ^ k - 1 + bitsToNat (rest.take k)) + 1) 2 *
        (if (2 ^ k - 1 + bitsToNat (rest.take k)) % 2 = 1 then 1 else -1) := by
  obtain ⟨hi, hdrop, hbytes⟩ := ueLoopAux_spec k bs 0 32 rest hb hsh (by omega) (by omega)
  have htake : (rest.take k).length = k := by
    simp [List.length_take]
    omega
  have hvlt : bitsToNat (rest.take k) < 2 ^ k := by
    have := bitsToNat_lt (rest.take k)
    rwa [htake] at this
  have h2k : 2 ^ k ≤ 2 ^ 31 := Nat.pow_le_pow_right (by omega) hk
  have hfit : 2 ^ k - 1 + bitsToNat (rest.take k) < 2 ^ 32 := by
    have h1 : (1 : Nat) ≤ 2 ^ k := Nat.one_le_two_pow
    have : (2 : Nat) ^ 32 = 2 ^ 31 + 2 ^ 31 := by norm_num
    omega
  have hue : (nal_bs_read_ue bs).1 = 2 ^ k - 1 + bitsToNat (rest.take k) ∧
      allBits (nal_bs_read_ue bs).2 = rest.drop k := by
    have hi' : (ueLoopAux bs 0 32).1 = k := by omega
    simp only [nal_bs_read_ue]
    rw [hi']
    rcases Nat.eq_zero_or_pos k with hk0 | hkpos
    · subst hk0
      simp only [nal_bs_read, if_pos rfl]
      constructor
      · simp [bitsToNat]
      · simpa using hdrop
    · obtain ⟨hval, hadv, _⟩ := nal_bs_read_spec (ueLoopAux bs 0 32).2 k hkpos
        (by omega) hbytes (by rw [hdrop]; omega)
      rw [hdrop] at hval hadv
      refine ⟨?_, hadv⟩
      rw [hval, Nat.mod_eq_of_lt hfit]
  refine ⟨hue.1, hue.2, ?_⟩
  simp only [nal_bs_read_se]
  rw [hue.1]

/-- Witness for C5: the one-byte stream 0x28 decodes as ue = 4 and
se = -2 via the Exp-Golomb theorem. -/
theorem C5_exp_golomb_witness :
    (nal_bs_read_ue (nal_bs_init [40])).1 = 4 ∧
    (nal_bs_read_se (nal_bs_init [40])).1 = -2 := by
  have h := C5_exp_golomb (nal_bs_init [40]) 2 [false, true, false, false, false]
    (by decide) (by decide) (by decide) (by decide)
  refine ⟨?_, ?_⟩
  · rw [h.1]
    decide
  · rw [h.2.2]
    decide

/-- Shifting a byte into the cache leaves the low 8 bits equal to it; for
byte 0 the low 8 bits become zero. -/
theorem cache_push0_mod256 (c : Nat) : ((c * 256 + 0) % 2 ^ 64) % 256 = 0 := by
  rw [Nat.add_zero, Nat.mod_mod_of_dvd _ (by norm_num : (256 : Nat) ∣ 2 ^ 64)]
  simp [Nat.mul_mod_left]

/-- Shifting a 0 byte into a cache whose low byte is already 0 zeroes the
low 16 bits. -/
theorem cache_push0_mod65536 (c : Nat) (hc : c % 256 = 0) :
    ((c * 256 + 0) % 2 ^ 64) % 65536 = 0 := by
  obtain ⟨k, rfl⟩ := Nat.dvd_of_mod_eq_zero hc
  have h2 : 256 * k * 256 = 65536 * k := by ring
  rw [Nat.add_zero, Nat.mod_mod_of_dvd _ (by norm_num : (65536 : Nat) ∣ 2 ^ 64), h2,
    Nat.mul_mod_right]

/-- A successful pull consumes at least one byte of data. -/
theorem pullByte_some_len (d : List Nat) (c : Nat) (b : Nat) (d' : List Nat)
    (h : pullByte d c = (some b, d')) : d'.length < d.length := by
  match d with
  | [] => simp [pullByte] at h
  | x :: rest =>
    simp only [pullByte] at h
    split_ifs at h with hx
    · match rest with
      | [] => simp at h
      | b2 :: rest2 =>
        simp only [Prod.mk.injEq] at h
        obtain ⟨_, hd⟩ := h
        subst hd
        simp only [List.length_cons]
        omega
    · simp only [Prod.mk.injEq] at h
      obtain ⟨_, hd⟩ := h
      subst hd
      simp only [List.length_cons]
      omega

/-- One pull step preserves the insertion alignment: both streams produce
the same byte (or both run out), and the remaining data stay related at
the updated cache. -/
theorem pull_bisim (v d1 d2 : List Nat) (c : Nat)
    (h : PairInv v d1 d2 c) (h3 : v.head? ≠ some 3) :
    (pullByte d1 c).1 = (pullByte d2 c).1 ∧
    (∀ b, (pullByte d1 c).1 = some b →
      PairInv v (pullByte d1 c).2 (pullByte d2 c).2 ((c * 256 + b) % 2 ^ 64)) ∧
    ((pullByte d1 c).1 = none → (pullByte d1 c).2 = (pullByte d2 c).2) := by
  rcases h with ⟨w, rfl, rfl⟩ | ⟨rfl, rfl, hc⟩ | ⟨h1, rfl, hc⟩ | rfl
  · match w with
    | [] =>
      have e1 : pullByte ([] ++ 0 :: 0 :: v) c = (some 0, 0 :: v) := by
        simp [pullByte]
      have e2 : pullByte ([] ++ 0 :: 0 :: 3 :: v) c = (some 0, 0 :: 3 :: v) := by
        simp [pullByte]
      rw [e1, e2]
      refine ⟨rfl, ?_, by intro hx; cases hx⟩
      intro b hb
      injection hb with hb'
      subst hb'
      exact Or.inr (Or.inl ⟨rfl, rfl, cache_push0_mod256 c⟩)
    | b0 :: w' =>
      by_cases hcnd : b0 = 3 ∧ c % 65536 = 0
      · obtain ⟨rfl, hc⟩ := hcnd
        match w' with
        | [] =>
          have e1 : pullByte ((3 :: []) ++ 0 :: 0 :: v) c = (some 0, 0 :: v) := by
            simp [pullByte, hc]
          have e2 : pullByte ((3 :: []) ++ 0 :: 0 :: 3 :: v) c = (some 0, 0 :: 3 :: v) := by
            simp [pullByte, hc]
          rw [e1, e2]
          refine ⟨rfl, ?_, by intro hx; cases hx⟩
          intro b hb
          injection hb with hb'
          subst hb'
          exact Or.inr (Or.inl ⟨rfl, rfl, cache_push0_mod256 c⟩)
        | b2 :: w'' =>
          have e1 : pullByte ((3 :: b2 :: w'') ++ 0 :: 0 :: v) c =
              (some b2, w'' ++ 0 :: 0 :: v) := by
            simp [pullByte, hc]
          have e2 : pullByte ((3 :: b2 :: w'') ++ 0 :: 0 :: 3 :: v) c =
              (some b2, w'' ++ 0 :: 0 :: 3 :: v) := by
            simp [pullByte, hc]
          rw [e1, e2]
          refine ⟨rfl, ?_, by intro hx; cases hx⟩
          intro b hb
          exact Or.inl ⟨w'', rfl, rfl⟩
      · have e1 : pullByte ((b0 :: w') ++ 0 :: 0 :: v) c =
            (some b0, w' ++ 0 :: 0 :: v) := by
          simp only [List.cons_append, pullByte, if_neg hcnd]
        have e2 : pullByte ((b0 :: w') ++ 0 :: 0 :: 3 :: v) c =
            (some b0, w' ++ 0 :: 0 :: 3 :: v) := by
          simp only [List.cons_append, pullByte, if_neg hcnd]
        rw [e1, e2]
        refine ⟨rfl, ?_, by intro hx; cases hx⟩
        intro b hb
        exact Or.inl ⟨w', rfl, rfl⟩
  · have e1 : pullByte (0 :: v) c = (some 0, v) := by simp [pullByte]
    have e2 : pullByte (0 :: 3 :: v) c = (some 0, 3 :: v) := by simp [pullByte]
    rw [e1, e2]
    refine ⟨rfl, ?_, by intro hx; cases hx⟩
    intro b hb
    injection hb with hb'
    subst hb'
    exact Or.inr (Or.inr (Or.inl ⟨rfl, rfl, cache_push0_mod65536 c hc⟩))
  · rw [h1]
    match v, h3 with
    | [], _ =>
      have e1 : pullByte ([] : List Nat) c = (none, []) := rfl
      have e2 : pullByte [3] c = (none, []) := by simp [pullByte, hc]
      rw [e1, e2]
      refine ⟨rfl, ?_, fun _ => rfl⟩
      intro b hb
      cases hb
    | hd :: t, h3 =>
      have hne : hd ≠ 3 := by simpa using h3
      have e1 : pullByte (hd :: t) c = (some hd, t) := by
        simp [pullByte, hne]
      have e2 : pullByte (3 :: hd :: t) c = (some hd, t) := by
        simp [pullByte, hc]
      rw [e1, e2]
      exact ⟨rfl, fun b _ => Or.inr (Or.inr (Or.inr rfl)), by intro hx; cases hx⟩
  · exact ⟨rfl, fun b _ => Or.inr (Or.inr (Or.inr rfl)), fun _ => rfl⟩

/-- The fill loop preserves the insertion alignment and returns the same
effective bit count, for any sufficient fuels. -/
theorem fill_bisim (v : List Nat) (h3 : v.head? ≠ some 3) :
    ∀ (f2 f1 n : Nat) (s1 s2 : nal_bitstream),
    StRel v s1 s2 → s1.data.length < f1 → s2.data.length < f2 →
    StRel v (fillAux n f1 s1).1 (fillAux n f2 s2).1 ∧
    (fillAux n f1 s1).2 = (fillAux n f2 s2).2 := by
  intro f2
  induction f2 with
  | zero =>
    intro f1 n s1 s2 _ _ h2
    omega
  | succ g2 ih =>
    intro f1 n s1 s2 hrel h1 h2
    obtain ⟨hh, hc, hp⟩ := hrel
    obtain ⟨g1, rfl⟩ : ∃ g1, f1 = g1 + 1 := ⟨f1 - 1, by omega⟩
    simp only [fillAux]
    by_cases hlt : s1.head < n
    · rw [if_pos hlt, if_pos (by rw [← hh]; exact hlt)]
      obtain ⟨hfst, hsome, hnone⟩ := pull_bisim v s1.data s2.data s1.cache hp h3
      rw [← hc]
      rcases hq1 : pullByte s1.data s1.cache with ⟨o1, d1'⟩
      rcases hq2 : pullByte s2.data s1.cache with ⟨o2, d2'⟩
      rw [hq1, hq2] at hfst hsome hnone
      dsimp only at hfst hsome hnone
      subst hfst
      match o1 with
      | none =>
        dsimp only
        exact ⟨⟨hh, rfl, Or.inr (Or.inr (Or.inr (hnone rfl)))⟩, hh⟩
      | some b =>
        dsimp only
        have hl1 : d1'.length < g1 := by
          have := pullByte_some_len s1.data s1.cache b d1' hq1
          omega
        have hl2 : d2'.length < g2 := by
          have := pullByte_some_len s2.data s1.cache b d2' hq2
          omega
        refine ih g1 n _ _ ⟨by simp [hh], by simp [hc], ?_⟩ hl1 hl2
        simpa using hsome b rfl
    · rw [if_neg hlt, if_neg (by rw [← hh]; exact hlt)]
      exact ⟨⟨hh, hc, hp⟩, rfl⟩

/-- `nal_bs_read` returns the same value on aligned streams and keeps them
aligned. -/
theorem read_bisim (v : List Nat) (h3 : v.head? ≠ some 3)
    (s1 s2 : nal_bitstream) (n : Nat) (h : StRel v s1 s2) :
    (nal_bs_read s1 n).1 = (nal_bs_read s2 n).1 ∧
    StRel v (nal_bs_read s1 n).2 (nal_bs_read s2 n).2 := by
  by_cases hn : n = 0
  · subst hn
    simp only [nal_bs_read, if_pos rfl]
    exact ⟨rfl, h⟩
  · simp only [nal_bs_read, if_neg hn]
    obtain ⟨hrel', hm⟩ := fill_bisim v h3 (s2.data.length + 1) (s1.data.length + 1) n s1 s2 h
      (by omega) (by omega)
    obtain ⟨hh', hc', hp'⟩ := hrel'
    rw [hm, hh', hc']
    rw [hc'] at hp'
    exact ⟨rfl, ⟨rfl, rfl, hp'⟩⟩

/-- End-of-stream agrees on aligned streams when at least one byte follows
the insertion point. -/
theorem eos_bisim (v : List Nat) (hv : v ≠ []) (s1 s2 : nal_bitstream)
    (h : StRel v s1 s2) : nal_bs_eos s1 = nal_bs_eos s2 := by
  obtain ⟨hh, _, hp⟩ := h
  unfold nal_bs_eos
  rw [hh]
  rcases hp with ⟨w, h1, h2⟩ | ⟨h1, h2, _⟩ | ⟨h1, h2, _⟩ | h1
  · rw [h1, h2]
    cases w <;> simp
  · rw [h1, h2]
    simp
  · rw [h1, h2]
    match v, hv with
    | b :: t, _ => simp
  · rw [h1]

/-- The leading-zero loop of `nal_bs_read_ue` runs identically on aligned
streams. -/
theorem ueLoop_bisim (v : List Nat) (hv : v ≠ []) (h3 : v.head? ≠ some 3) :
    ∀ (fuel i : Nat) (s1 s2 : nal_bitstream), StRel v s1 s2 →
    (ueLoopAux s1 i fuel).1 = (ueLoopAux s2 i fuel).1 ∧
    StRel v (ueLoopAux s1 i fuel).2 (ueLoopAux s2 i fuel).2 := by
  intro fuel
  induction fuel with
  | zero =>
    intro i s1 s2 h
    exact ⟨rfl, h⟩
  | succ g ih =>
    intro i s1 s2 h
    simp only [ueLoopAux]
    obtain ⟨hval, hrel⟩ := read_bisim v h3 s1 s2 1 h
    have heq := eos_bisim v hv _ _ hrel
    by_cases hcond : (nal_bs_read s1 1).1 = 0 ∧ nal_bs_eos (nal_bs_read s1 1).2 = false ∧ i < 31
    · rw [if_pos hcond, if_pos (by rw [← hval, ← heq]; exact hcond)]
      exact ih (i + 1) _ _ hrel
    · rw [if_neg hcond, if_neg (by rw [← hval, ← heq]; exact hcond)]
      exact ⟨rfl, hrel⟩

/-- `nal_bs_read_ue` returns the same value on aligned streams and keeps
them aligned. -/
theorem ue_bisim (v : List Nat) (hv : v ≠ []) (h3 : v.head? ≠ some 3)
    (s1 s2 : nal_bitstream) (h : StRel v s1 s2) :
    (nal_bs_read_ue s1).1 = (nal_bs_read_ue s2).1 ∧
    StRel v (nal_bs_read_ue s1).2 (nal_bs_read_ue s2).2 := by
  simp only [nal_bs_read_ue]
  obtain ⟨hi, hrel⟩ := ueLoop_bisim v hv h3 32 0 s1 s2 h
  rw [hi]
  obtain ⟨hval, hrel'⟩ := read_bisim v h3 _ _ (ueLoopAux s2 0 32).1 hrel
  rw [hval]
  exact ⟨rfl, hrel'⟩

/-- A whole operation sequence returns the same values on aligned
streams. -/
theorem runOps_bisim (v : List Nat) (hv : v ≠ []) (h3 : v.head? ≠ some 3) :
    ∀ (ops : List ReadOp) (s1 s2 : nal_bitstream), StRel v s1 s2 →
    runOps s1 ops = runOps s2 ops := by
  intro ops
  induction ops with
  | nil =>
    intro s1 s2 _
    rfl
  | cons op rest ih =>
    intro s1 s2 h
    simp only [runOps]
    match op with
    | .bits n =>
      obtain ⟨hval, hrel⟩ := read_bisim v h3 s1 s2 n h
      simp only [runOp, hval]
      rw [ih _ _ hrel]
    | .ue =>
      obtain ⟨hval, hrel⟩ := ue_bisim v hv h3 s1 s2 h
      simp only [runOp, hval]
      rw [ih _ _ hrel]
    | .se =>
      obtain ⟨hval, hrel⟩ := ue_bisim v hv h3 s1 s2 h
      simp only [runOp, nal_bs_read_se, hval]
      rw [ih _ _ hrel]

/-- C6 counterexample: the claim allows inserting the emulation-prevention
0x03 after any `00 00` pair of any byte sequence, but when the byte after
the insertion point is itself 0x03 the reads change: on `00 00 03` a
24-bit read returns 0 (the lone 0x03 is discarded), while on `00 00 03 03`
(the 0x03 inserted after the pair) the discard consumes the inserted byte
and the original 0x03 contributes bits, so the read returns 3. -/
theorem C6_counterexample :
    ([] : List Nat) ++ 0 :: 0 :: [3] = [0, 0, 3] ∧
    ([] : List Nat) ++ 0 :: 0 :: 3 :: [3] = [0, 0, 3, 3] ∧
    runOps (nal_bs_init [0, 0, 3]) [ReadOp.bits 24] = [0] ∧
    runOps (nal_bs_init [0, 0, 3, 3]) [ReadOp.bits 24] = [3] ∧
    runOps (nal_bs_init [0, 0, 3]) [ReadOp.bits 24] ≠
      runOps (nal_bs_init [0, 0, 3, 3]) [ReadOp.bits 24] := by
  refine ⟨rfl, rfl, by decide, by decide, by decide⟩

/-- **C6 (amended).** A raw 0x03 byte is discarded exactly when the low 16
bits of the cache are zero - i.e. the last two bytes shifted into the
cache were both 0x00 - and the immediately preceding raw byte was not
itself discarded (`check_three_byte`); consequently inserting an
emulation-prevention 0x03 after a `00 00` pair preserves the values of
every sequence of `read_bits`/`read_ue`/`read_se` calls, provided at least
one byte follows the insertion point and that byte is not itself 0x03. -/
theorem C6_insertion (u v : List Nat) (ops : List ReadOp)
    (hv : v ≠ []) (h3 : v.head? ≠ some 3) :
    runOps (nal_bs_init (u ++ 0 :: 0 :: v)) ops =
      runOps (nal_bs_init (u ++ 0 :: 0 :: 3 :: v)) ops := by
  apply runOps_bisim v hv h3
  exact ⟨rfl, rfl, Or.inl ⟨u, rfl, rfl⟩⟩

/-- Witness for C6: inserting 0x03 after the `00 00` pair of
`00 00 41 42` leaves a ue read followed by a 16-bit read unchanged. -/
theorem C6_insertion_witness :
    ([65, 66] : List Nat) ≠ [] ∧
    runOps (nal_bs_init ([] ++ 0 :: 0 :: [65, 66])) [ReadOp.ue, ReadOp.bits 16] =
      runOps (nal_bs_init ([] ++ 0 :: 0 :: 3 :: [65, 66])) [ReadOp.ue, ReadOp.bits 16] :=
  ⟨by decide, C6_insertion [] [65, 66] [ReadOp.ue, ReadOp.bits 16] (by decide) (by decide)⟩
